import Mathlib

/-! # Auto-import controller

A shallow embedding of `pkg/controller/autoimport/autoimport_controller.go`:
`ReconcileAutoImport.Reconcile` and `ReconcileAutoImport.updateAutoImportRetryTimes`,
together with the pieces of the Go standard library and of the Kubernetes client
they call.  The API server is a `Store` value that is passed through a pass, every
call to a collaborator is appended to a trace, and the answers that the controller
cannot determine (faults of the API server, the outcome of the client construction
and of the import) are read from an environment `Env`.
-/

namespace AutoImport

/-! ## Go integers and `strconv` -/

/-- Number of bits of a Go `int` (`strconv.IntSize`) on the 64-bit targets the
controller is built for. -/
def intSize : Nat := 64

/-- Largest value of a Go `int`. -/
def maxInt : Int := 2 ^ (intSize - 1) - 1

/-- Smallest value of a Go `int`. -/
def minInt : Int := -(2 ^ (intSize - 1))

/-- Result of a Go `int` operation whose exact value is `x`: signed arithmetic wraps
around modulo `2 ^ intSize`. -/
def wrapInt (x : Int) : Int := (x - minInt) % 2 ^ intSize + minInt

/-- Kinds of errors the controller can tell apart or produce. -/
inductive ErrKind where
  /-- API status error for which `errors.IsNotFound` holds. -/
  | notFound
  /-- API status error of a stale write. -/
  | conflict
  /-- The `strconv.ErrSyntax` of a `strconv.NumError`. -/
  | badNumber
  /-- The `strconv.ErrRange` of a `strconv.NumError`. -/
  | outOfRange
  /-- Any other error. -/
  | other
deriving DecidableEq, Repr

/-- A non-nil Go `error`: its kind and the text of `Error()`. -/
structure Err where
  kind : ErrKind
  msg : String
deriving DecidableEq, Repr

deriving instance DecidableEq for Except

/-- Value of an ASCII decimal digit, `none` for every other character. -/
def digitVal (c : Char) : Option Nat :=
  if 48 ≤ c.toNat ∧ c.toNat ≤ 57 then some (c.toNat - 48) else none

/-- The ASCII character of the decimal digit `d`. -/
def digitChar (d : Nat) : Char := Char.ofNat (48 + d)

/-- Largest value of a Go `uint64`, in which `strconv` accumulates the digits. -/
def maxUint : Nat := 2 ^ intSize - 1

/-- The digit loop of `strconv`: `n = n*10 + d`, failing with a bad-number error on
the first character that is not a decimal digit and with an out-of-range error at
the first digit with which the value no longer fits a `uint64`, whichever comes
first. -/
def parseDigits : List Char → Nat → Except ErrKind Nat
  | [], n => .ok n
  | ch :: rest, n =>
    match digitVal ch with
    | none => .error .badNumber
    | some d =>
      if maxUint < n * 10 + d then .error .outOfRange
      else parseDigits rest (n * 10 + d)

/-- Lower-case hexadecimal digit. -/
def hexDigit (d : Nat) : Char :=
  if d < 10 then Char.ofNat (48 + d) else Char.ofNat (87 + d)

/-- How `strconv.Quote` writes one character: the double quote and the backslash
behind a backslash, the control characters of ASCII as their escapes, and every other
character as it is (for a character outside ASCII that is what Go does when the
character is printable). -/
def quoteChar (c : Char) : List Char :=
  if c.toNat = 34 ∨ c.toNat = 92 then [Char.ofNat 92, c]
  else if c.toNat = 7 then [Char.ofNat 92, 'a']
  else if c.toNat = 8 then [Char.ofNat 92, 'b']
  else if c.toNat = 12 then [Char.ofNat 92, 'f']
  else if c.toNat = 10 then [Char.ofNat 92, 'n']
  else if c.toNat = 13 then [Char.ofNat 92, 'r']
  else if c.toNat = 9 then [Char.ofNat 92, 't']
  else if c.toNat = 11 then [Char.ofNat 92, 'v']
  else if c.toNat < 32 ∨ c.toNat = 127 then
    [Char.ofNat 92, 'x', hexDigit (c.toNat / 16), hexDigit (c.toNat % 16)]
  else [c]

/-- Go `strconv.Quote`: the text between double quotes, character by character as
`quoteChar` writes it. -/
def Quote (s : String) : String :=
  String.mk (Char.ofNat 34 :: ((s.data.map quoteChar).flatten ++ [Char.ofNat 34]))

/-- The `strconv.NumError` of `Atoi` for the input `s`, with the text of its
`Error()`. -/
def numError (kind : ErrKind) (s : String) (why : String) : Err :=
  { kind := kind, msg := "strconv.Atoi: parsing " ++ Quote s ++ ": " ++ why }

/-- The text of `strconv.ErrSyntax` and `strconv.ErrRange`. -/
def numErrorText (kind : ErrKind) : String :=
  match kind with
  | .outOfRange => "value out of range"
  | _ => "invalid syntax"

/-- Go `strconv.Atoi`: an optional sign followed by at least one decimal digit,
with a value that fits an `int`; everything else is an error. -/
def Atoi (s : String) : Except Err Int :=
  let s0 := s.data
  let signed := s0.head? = some '-' ∨ s0.head? = some '+'
  let digits := if signed then s0.tail else s0
  if digits = [] then
    .error (numError .badNumber s "invalid syntax")
  else
    match parseDigits digits 0 with
    | .error kind => .error (numError kind s (numErrorText kind))
    | .ok n =>
      let v : Int := if s0.head? = some '-' then -(n : Int) else (n : Int)
      if v < minInt ∨ maxInt < v then
        .error (numError .outOfRange s "value out of range")
      else
        .ok v

/-- Decimal digits of `n`, most significant first, in front of `acc`.  The first
argument bounds the number of digits produced. -/
def natDigits : Nat → Nat → List Char → List Char
  | 0, _, acc => acc
  | fuel + 1, n, acc =>
    if n < 10 then digitChar n :: acc
    else natDigits fuel (n / 10) (digitChar (n % 10) :: acc)

/-- Go `strconv.Itoa`: the decimal text of `i`, with a leading `-` when negative. -/
def Itoa (i : Int) : String :=
  if i < 0 then String.mk ('-' :: natDigits (i.natAbs + 1) i.natAbs [])
  else String.mk (natDigits (i.natAbs + 1) i.natAbs [])

/-! ## Kubernetes objects -/

/-- Status of a `metav1.Condition`. -/
inductive ConditionStatus where
  | ConditionTrue
  | ConditionFalse
  | ConditionUnknown
deriving DecidableEq, Repr

/-- The fields of `metav1.Condition` the controller sets. -/
structure Condition where
  Type_ : String
  Status : ConditionStatus
  Message : String
  Reason : String
deriving DecidableEq, Repr

/-- A `clusterv1.ManagedCluster`: cluster scoped, named after the managed cluster. -/
structure ManagedCluster where
  Name : String
  Conditions : List Condition
deriving DecidableEq, Repr

/-- A `corev1.Secret`.  `Data` is the Go map `map[string][]byte` as an association
list in which the first entry of a key is the one the map holds. -/
structure Secret where
  Namespace : String
  Name : String
  Data : List (String × String)
deriving DecidableEq, Repr

/-- Go map read `m[key]`: `none` stands for the nil slice of an absent key. -/
def dataGet (m : List (String × String)) (key : String) : Option String :=
  (m.find? (fun e => e.1 == key)).map (fun e => e.2)

/-- Go map write `m[key] = value`. -/
def dataSet (m : List (String × String)) (key value : String) : List (String × String) :=
  (key, value) :: m.filter (fun e => !(e.1 == key))

/-- Go conversion `string(b)` of a byte slice read from a map: the nil slice of an
absent key gives the empty string. -/
def bytesToString (b : Option String) : String := b.getD ""

/-- The objects held by the API server. -/
structure Store where
  managedClusters : List ManagedCluster
  secrets : List Secret
deriving DecidableEq, Repr

/-- Whether `s` is the secret `ns/name`. -/
def Secret.hasKey (ns name : String) (s : Secret) : Bool :=
  s.Namespace == ns && s.Name == name

/-- The managed cluster stored under `name`, if any. -/
def Store.findCluster (st : Store) (name : String) : Option ManagedCluster :=
  st.managedClusters.find? (fun c => c.Name == name)

/-- The secret stored under `ns/name`, if any. -/
def Store.findSecret (st : Store) (ns name : String) : Option Secret :=
  st.secrets.find? (Secret.hasKey ns name)

/-- The store without the secret `ns/name`. -/
def Store.removeSecret (st : Store) (ns name : String) : Store :=
  { st with secrets := st.secrets.filter (fun s => !(Secret.hasKey ns name s)) }

/-- The store in which the secret stored under the key of `obj` is `obj`. -/
def Store.replaceSecret (st : Store) (obj : Secret) : Store :=
  { st with secrets :=
      st.secrets.map (fun s => if Secret.hasKey obj.Namespace obj.Name s then obj else s) }

/-- The store in which the managed cluster `name` has the conditions `conds`. -/
def Store.replaceConditions (st : Store) (name : String) (conds : List Condition) : Store :=
  { st with managedClusters :=
      st.managedClusters.map (fun c => if c.Name == name then { c with Conditions := conds } else c) }

/-! ## Collaborators -/

/-- The client and REST mapper `helpers.GenerateClientFromSecret` returns; the
controller only hands them on to the import. -/
structure ImportClient where
  id : Nat
deriving DecidableEq, Repr

/-- Constants of package `constants`, which is not part of the sources at hand. -/
structure Constants where
  AutoImportSecretName : String
  ImportSecretNameSuffix : String
deriving DecidableEq, Repr

/-- What a pass cannot determine itself: the constants, the faults with which the
API server answers a call instead of carrying it out (`none`: no fault), and the
outcome of the two helpers that talk to the managed cluster. -/
structure Env where
  constants : Constants
  getClusterFault : String → Option Err
  getSecretFault : String → String → Option Err
  deleteFault : Secret → Option Err
  updateFault : Secret → Option Err
  statusFault : String → Condition → Option Err
  GenerateClientFromSecret : Secret → Except Err ImportClient
  ImportManagedClusterFromSecret : ImportClient → Secret → Option Err

/-- One call of a pass to a collaborator, with the answer it got (`none` is the nil
error). -/
inductive Event where
  | getCluster (name : String) (answer : Option Err)
  | getSecret (ns name : String) (answer : Option Err)
  | generateClient (secret : Secret) (answer : Option Err)
  | importCluster (client : ImportClient) (importSecret : Secret) (answer : Option Err)
  | delete (secret : Secret) (answer : Option Err)
  | update (secret : Secret) (answer : Option Err)
  | updateStatus (name : String) (cond : Condition) (answer : Option Err)
  | eventf (reason msg : String)
  | warningf (reason msg : String)
deriving DecidableEq, Repr

/-- The API server and the calls made so far, oldest first. -/
structure World where
  store : Store
  trace : List Event
deriving DecidableEq, Repr

/-- The API error of an object that does not exist. -/
def notFoundErr (what : String) : Err := { kind := .notFound, msg := what ++ " not found" }

/-- The `errors.IsNotFound` of apimachinery. -/
def IsNotFound (err : Option Err) : Bool :=
  match err with
  | some e => e.kind == .notFound
  | none => false

/-- The error part of a Go result pair. -/
def errOf {α : Type} (r : Except Err α) : Option Err :=
  match r with
  | .ok _ => none
  | .error e => some e

/-- Answer of `client.Get` for the managed cluster `name`. -/
def getManagedCluster (env : Env) (st : Store) (name : String) : Except Err ManagedCluster :=
  match env.getClusterFault name with
  | some e => .error e
  | none =>
    match st.findCluster name with
    | some c => .ok c
    | none => .error (notFoundErr name)

/-- Answer of `client.Get` for the secret `ns/name`. -/
def getSecret (env : Env) (st : Store) (ns name : String) : Except Err Secret :=
  match env.getSecretFault ns name with
  | some e => .error e
  | none =>
    match st.findSecret ns name with
    | some s => .ok s
    | none => .error (notFoundErr (ns ++ "/" ++ name))

/-- Answer of `client.Delete` for `secret`. -/
def deleteAnswer (env : Env) (st : Store) (secret : Secret) : Option Err :=
  match env.deleteFault secret with
  | some e => some e
  | none =>
    match st.findSecret secret.Namespace secret.Name with
    | some _ => none
    | none => some (notFoundErr (secret.Namespace ++ "/" ++ secret.Name))

/-- Answer of `client.Update` for `secret`. -/
def updateAnswer (env : Env) (st : Store) (secret : Secret) : Option Err :=
  match env.updateFault secret with
  | some e => some e
  | none =>
    match st.findSecret secret.Namespace secret.Name with
    | some _ => none
    | none => some (notFoundErr (secret.Namespace ++ "/" ++ secret.Name))

/-- The call `r.client.Get` for a managed cluster. -/
def clientGetCluster (env : Env) (name : String) (w : World) :
    Except Err ManagedCluster × World :=
  let r := getManagedCluster env w.store name
  (r, { w with trace := w.trace ++ [Event.getCluster name (errOf r)] })

/-- The call `r.client.Get` for a secret. -/
def clientGetSecret (env : Env) (ns name : String) (w : World) : Except Err Secret × World :=
  let r := getSecret env w.store ns name
  (r, { w with trace := w.trace ++ [Event.getSecret ns name (errOf r)] })

/-- The call `r.client.Delete`: removes the secret unless the API server answers
with an error. -/
def clientDelete (env : Env) (secret : Secret) (w : World) : Option Err × World :=
  let a := deleteAnswer env w.store secret
  (a, { store := if a = none then w.store.removeSecret secret.Namespace secret.Name else w.store,
        trace := w.trace ++ [Event.delete secret a] })

/-- The call `r.client.Update`: stores `secret` unless the API server answers with
an error. -/
def clientUpdate (env : Env) (secret : Secret) (w : World) : Option Err × World :=
  let a := updateAnswer env w.store secret
  (a, { store := if a = none then w.store.replaceSecret secret else w.store,
        trace := w.trace ++ [Event.update secret a] })

/-- The call `r.recorder.Eventf`. -/
def recorderEventf (reason msg : String) (w : World) : World :=
  { w with trace := w.trace ++ [Event.eventf reason msg] }

/-- The call `r.recorder.Warningf`. -/
def recorderWarningf (reason msg : String) (w : World) : World :=
  { w with trace := w.trace ++ [Event.warningf reason msg] }

/-- The call `helpers.GenerateClientFromSecret`. -/
def GenerateClientFromSecret (env : Env) (secret : Secret) (w : World) :
    Except Err ImportClient × World :=
  let r := env.GenerateClientFromSecret secret
  (r, { w with trace := w.trace ++ [Event.generateClient secret (errOf r)] })

/-- The call `helpers.ImportManagedClusterFromSecret`. -/
def ImportManagedClusterFromSecret (env : Env) (client : ImportClient) (importSecret : Secret)
    (w : World) : Option Err × World :=
  let a := env.ImportManagedClusterFromSecret client importSecret
  (a, { w with trace := w.trace ++ [Event.importCluster client importSecret a] })

/-- Modelled from the spec: the condition merge of `helpers.UpdateManagedClusterStatus`,
whose source is not at hand.  It replaces the condition of the same type where it
stands, and appends the condition when the type is new. -/
def setCondition (conds : List Condition) (cond : Condition) : List Condition :=
  if conds.any (fun c => c.Type_ == cond.Type_) then
    conds.map (fun c => if c.Type_ == cond.Type_ then cond else c)
  else conds ++ [cond]

/-- Answer of the condition write for the managed cluster `name`. -/
def statusAnswer (env : Env) (st : Store) (name : String) (cond : Condition) : Option Err :=
  match env.statusFault name cond with
  | some e => some e
  | none =>
    match st.findCluster name with
    | some _ => none
    | none => some (notFoundErr name)

/-- Modelled from the spec: `helpers.UpdateManagedClusterStatus`, whose source is not
at hand.  It writes `cond` onto the managed cluster `name` with `setCondition`,
unless the write is answered with an error. -/
def UpdateManagedClusterStatus (env : Env) (name : String) (cond : Condition) (w : World) :
    Option Err × World :=
  let a := statusAnswer env w.store name cond
  (a, { store :=
          match a, w.store.findCluster name with
          | none, some c => w.store.replaceConditions name (setCondition c.Conditions cond)
          | _, _ => w.store,
        trace := w.trace ++ [Event.updateStatus name cond a] })

/-! ## The controller -/

/-- The key of the retry counter in the data of the auto-import secret. -/
def autoImportRetryName : String := "autoImportRetry"

/-- A `reconcile.Request`; the controller reads its namespace only. -/
structure Request where
  Namespace : String
  Name : String
deriving DecidableEq, Repr

/-- A `reconcile.Result`; the zero value asks for no requeue. -/
structure Result where
  Requeue : Bool := false
deriving DecidableEq, Repr

/-- The error a pass returns: an error handed on as it is, or the aggregate of
`utilerrors.NewAggregate`. -/
inductive Error where
  | plain (err : Err)
  | aggregate (errs : List Err)
deriving DecidableEq, Repr

/-- The `utilerrors.NewAggregate` of apimachinery: nil for an empty list and for a
list of nil errors, and otherwise the aggregate of the non-nil errors in order. -/
def NewAggregate (errlist : List (Option Err)) : Option Error :=
  if errlist.length = 0 then none
  else
    let errs := errlist.filterMap id
    if errs.length = 0 then none else some (Error.aggregate errs)

/-- Whether the returned error carries `e`. -/
def Error.contains (r : Error) (e : Err) : Prop :=
  match r with
  | .plain err => err = e
  | .aggregate errs => e ∈ errs

/-- What a pass leaves behind: the returned pair, the API server and the calls. -/
structure Outcome where
  result : Result
  err : Option Error
  world : World
deriving DecidableEq, Repr

/-- The secret with the retry counter set: `secret.Data[autoImportRetryName] = ...`. -/
def Secret.withRetry (secret : Secret) (text : String) : Secret :=
  { secret with Data := dataSet secret.Data autoImportRetryName text }

/-- The method `ReconcileAutoImport.updateAutoImportRetryTimes`. -/
def updateAutoImportRetryTimes (env : Env) (secret : Secret) (w : World) : Option Err × World :=
  match Atoi (bytesToString (dataGet secret.Data autoImportRetryName)) with
  | .error err =>
    let w := recorderWarningf "AutoImportRetryInvalid"
      "The value of autoImportRetry is invalid in auto-import-secret secret" w
    (some err, w)
  | .ok autoImportRetry =>
    let w := recorderEventf "RetryToImportCluster"
      ("Retry to import cluster " ++ secret.Namespace ++ ", " ++ Itoa autoImportRetry) w
    let autoImportRetry := wrapInt (autoImportRetry - 1)
    if autoImportRetry < 0 then
      -- stop retry, delete the auto-import-secret
      match clientDelete env secret w with
      | (some err, w) => (some err, w)
      | (none, w) =>
        let w := recorderEventf "AutoImportSecretDeleted"
          ("Exceed the retry times, delete the auto import secret "
            ++ secret.Namespace ++ "/" ++ secret.Name) w
        (none, w)
    else
      clientUpdate env (secret.withRetry (Itoa autoImportRetry)) w

/-- The condition of a succeeded import. -/
def importSucceeded : Condition :=
  { Type_ := "ManagedClusterImportSucceeded",
    Status := .ConditionTrue,
    Message := "Import succeeded",
    Reason := "ManagedClusterImported" }

/-- The condition of an import that failed with `err`. -/
def importFailed (managedClusterName : String) (err : Err) : Condition :=
  { importSucceeded with
    Status := .ConditionFalse,
    Message := "Unable to import " ++ managedClusterName ++ ": " ++ err.msg,
    Reason := "ManagedClusterNotImported" }

/-- Name of the import secret of a managed cluster. -/
def importSecretName (env : Env) (managedClusterName : String) : String :=
  managedClusterName ++ "-" ++ env.constants.ImportSecretNameSuffix

/-- The part of `Reconcile` after the client construction: the import, the retry
counter or the deletion of the auto-import secret, and the condition. -/
def importAndReport (env : Env) (managedClusterName : String) (autoImportSecret : Secret)
    (importClient : ImportClient) (importSecret : Secret) (w : World) : Outcome :=
  let importCondition := importSucceeded
  let errs : List (Option Err) := []
  let (err, w) := ImportManagedClusterFromSecret env importClient importSecret w
  let (importCondition, errs, w) :=
    match err with
    | some e =>
      let (retryErr, w) := updateAutoImportRetryTimes env autoImportSecret w
      (importFailed managedClusterName e, errs ++ [some e, retryErr], w)
    | none => (importCondition, errs, w)
  let (errs, w) :=
    if errs.length = 0 then
      let (err, w) := clientDelete env autoImportSecret w
      let errs := if err ≠ none then errs ++ [err] else errs
      (errs, recorderEventf "AutoImportSecretDeleted"
        ("The managed cluster " ++ managedClusterName
          ++ " is imported, delete its auto import secret") w)
    else (errs, w)
  let (err, w) := UpdateManagedClusterStatus env managedClusterName importCondition w
  let errs := if err ≠ none then errs ++ [err] else errs
  { result := {}, err := NewAggregate errs, world := w }

/-- The method `ReconcileAutoImport.Reconcile`, run against the API server `st`. -/
def Reconcile (env : Env) (request : Request) (st : Store) : Outcome :=
  let w : World := { store := st, trace := [] }
  let managedClusterName := request.Namespace
  match clientGetCluster env managedClusterName w with
  | (.error err, w) =>
    if IsNotFound (some err) then
      -- the managed cluster could have been deleted, do nothing
      { result := {}, err := none, world := w }
    else { result := {}, err := some (.plain err), world := w }
  | (.ok _, w) =>
    match clientGetSecret env managedClusterName env.constants.AutoImportSecretName w with
    | (.error err, w) =>
      if IsNotFound (some err) then
        -- the auto import secret could have been deleted, do nothing
        { result := {}, err := none, world := w }
      else { result := {}, err := some (.plain err), world := w }
    | (.ok autoImportSecret, w) =>
      match clientGetSecret env managedClusterName (importSecretName env managedClusterName) w with
      | (.error err, w) =>
        if IsNotFound (some err) then
          -- there is no import secret, do nothing
          { result := {}, err := none, world := w }
        else { result := {}, err := some (.plain err), world := w }
      | (.ok importSecret, w) =>
        match GenerateClientFromSecret env autoImportSecret w with
        | (.error err, w) => { result := {}, err := some (.plain err), world := w }
        | (.ok importClient, w) =>
          importAndReport env managedClusterName autoImportSecret importClient importSecret w

/-! ## Vocabulary of the statements -/

/-- The pass gets as far as the import: the three `Get` calls return the managed
cluster, the auto-import secret and the import secret, and the client construction
returns `importClient`. -/
def ReachesImport (env : Env) (request : Request) (st : Store)
    (autoImportSecret importSecret : Secret) (importClient : ImportClient) : Prop :=
  (∃ mc, getManagedCluster env st request.Namespace = .ok mc) ∧
  getSecret env st request.Namespace env.constants.AutoImportSecretName = .ok autoImportSecret ∧
  getSecret env st request.Namespace (importSecretName env request.Namespace)
    = .ok importSecret ∧
  env.GenerateClientFromSecret autoImportSecret = .ok importClient

/-- The calls of a pass up to the client construction, when all of them succeed. -/
def loadTrace (env : Env) (request : Request) (autoImportSecret : Secret) : List Event :=
  [Event.getCluster request.Namespace none,
   Event.getSecret request.Namespace env.constants.AutoImportSecretName none,
   Event.getSecret request.Namespace (importSecretName env request.Namespace) none,
   Event.generateClient autoImportSecret none]

/-- A `Get` call. -/
def Event.isGet : Event → Bool
  | .getCluster _ _ => true
  | .getSecret _ _ _ => true
  | _ => false

/-- A `Delete` call. -/
def Event.isDelete : Event → Bool
  | .delete _ _ => true
  | _ => false

/-- An `Update` call. -/
def Event.isUpdate : Event → Bool
  | .update _ _ => true
  | _ => false

/-- A call of the import helper. -/
def Event.isImport : Event → Bool
  | .importCluster _ _ _ => true
  | _ => false

/-- A condition write. -/
def Event.isStatusWrite : Event → Bool
  | .updateStatus _ _ _ => true
  | _ => false

/-- A call of the client construction. -/
def Event.isGenerateClient : Event → Bool
  | .generateClient _ _ => true
  | _ => false

/-- A write of a secret: a `Delete` or an `Update`. -/
def Event.isSecretWrite (ev : Event) : Bool := ev.isDelete || ev.isUpdate

/-- A call that belongs to the part of a pass after the import. -/
def Event.isFollowUp : Event → Bool
  | .delete _ _ => true
  | .update _ _ => true
  | .updateStatus _ _ _ => true
  | .eventf _ _ => true
  | .warningf _ _ => true
  | _ => false

/-- The retry counter of a secret as `Atoi` reads it. -/
def Secret.retry (secret : Secret) : Except Err Int :=
  Atoi (bytesToString (dataGet secret.Data autoImportRetryName))

/-- The API server and the calls after `k` consecutive passes for the same request,
each pass running against what the one before it left behind. -/
def passes (env : Env) (request : Request) : Nat → Store → Store × List Event
  | 0, st => (st, [])
  | k + 1, st =>
    let o := Reconcile env request st
    let r := passes env request k o.world.store
    (r.1, o.world.trace ++ r.2)

/-- An environment in which every import fails and nothing else does: the API server
answers no call with a fault and the client construction succeeds. -/
structure FailingImports (env : Env) : Prop where
  getCluster : ∀ name, env.getClusterFault name = none
  getSecret : ∀ ns name, env.getSecretFault ns name = none
  delete : ∀ secret, env.deleteFault secret = none
  update : ∀ secret, env.updateFault secret = none
  status : ∀ name cond, env.statusFault name cond = none
  client : ∀ secret, ∃ c, env.GenerateClientFromSecret secret = .ok c
  imported : ∀ c secret, ∃ e, env.ImportManagedClusterFromSecret c secret = some e

/-- The API server holds the managed cluster of the request, its import secret, and
an auto-import secret whose retry counter reads as `m`. -/
def Pending (env : Env) (request : Request) (st : Store) (m : Int) : Prop :=
  (∃ mc, st.findCluster request.Namespace = some mc) ∧
  (∃ secret, st.findSecret request.Namespace env.constants.AutoImportSecretName = some secret ∧
    secret.retry = .ok m) ∧
  (∃ importSecret, st.findSecret request.Namespace (importSecretName env request.Namespace)
    = some importSecret)

/-! ## A concrete cluster -/

/-- The constants as the controller is shipped. -/
def demoConstants : Constants :=
  { AutoImportSecretName := "auto-import-secret", ImportSecretNameSuffix := "import" }

/-- The request for the managed cluster `cluster1`. -/
def demoRequest : Request := { Namespace := "cluster1", Name := "auto-import-secret" }

/-- The managed cluster `cluster1`, without conditions so far. -/
def demoCluster : ManagedCluster := { Name := "cluster1", Conditions := [] }

/-- The auto-import secret of `cluster1` with the retry counter `retry`. -/
def demoSecret (retry : String) : Secret :=
  { Namespace := "cluster1", Name := "auto-import-secret",
    Data := [("kubeconfig", "apiVersion: v1"), ("autoImportRetry", retry)] }

/-- The auto-import secret of `cluster1` without a retry counter. -/
def demoSecretNoRetry : Secret :=
  { Namespace := "cluster1", Name := "auto-import-secret",
    Data := [("kubeconfig", "apiVersion: v1")] }

/-- The import secret of `cluster1`. -/
def demoImportSecret : Secret :=
  { Namespace := "cluster1", Name := "cluster1-import", Data := [("import.yaml", "kind: List")] }

/-- The client built from the auto-import secret. -/
def demoClient : ImportClient := { id := 0 }

/-- An API server holding `cluster1`, its import secret and the auto-import secret
`secret`. -/
def demoStore (secret : Secret) : Store :=
  { managedClusters := [demoCluster], secrets := [secret, demoImportSecret] }

/-- An error of the import. -/
def demoImportErr : Err := { kind := .other, msg := "connection refused" }

/-- An error of the client construction. -/
def demoClientErr : Err := { kind := .other, msg := "kubeconfig is missing" }

/-- An error of a `Delete`. -/
def demoDeleteErr : Err := { kind := .conflict, msg := "the object has been modified" }

/-- An error of a condition write. -/
def demoStatusErr : Err := { kind := .other, msg := "etcd is unavailable" }

/-- The answer of a `Delete` for a secret that is gone. -/
def demoGoneErr : Err := notFoundErr "cluster1/auto-import-secret"

/-- An environment without faults of the reads and of `Update`, in which the client
construction answers `client`, the import `imported`, every `Delete` is answered
with the fault `deleted` and every condition write with the fault `reported`. -/
def demoEnv (client : Except Err ImportClient) (imported deleted reported : Option Err) : Env :=
  { constants := demoConstants,
    getClusterFault := fun _ => none,
    getSecretFault := fun _ _ => none,
    deleteFault := fun _ => deleted,
    updateFault := fun _ => none,
    statusFault := fun _ _ => reported,
    GenerateClientFromSecret := fun _ => client,
    ImportManagedClusterFromSecret := fun _ _ => imported }

/-! ## Facts about `strconv` -/

theorem digitVal_digitChar (d : Nat) (h : d < 10) : digitVal (digitChar d) = some d := by
  interval_cases d <;> decide

theorem digitChar_ne_sign (d : Nat) (h : d < 10) :
    digitChar d ≠ '-' ∧ digitChar d ≠ '+' := by
  interval_cases d <;> decide

theorem parseDigits_append (xs ys : List Char) (n : Nat) :
    parseDigits (xs ++ ys) n = (parseDigits xs n).bind (parseDigits ys) := by
  induction xs generalizing n with
  | nil => rfl
  | cons c cs ih =>
    simp only [List.cons_append, parseDigits]
    cases digitVal c with
    | none => rfl
    | some d =>
      simp only
      split
      · rfl
      · exact ih (n * 10 + d)

theorem natDigits_acc (fuel n : Nat) (acc : List Char) :
    natDigits fuel n acc = natDigits fuel n [] ++ acc := by
  induction fuel generalizing n acc with
  | zero => simp [natDigits]
  | succ f ih =>
    simp only [natDigits]
    split
    · simp
    · rw [ih (n / 10) (digitChar (n % 10) :: acc), ih (n / 10) [digitChar (n % 10)]]
      simp

theorem parseDigits_natDigits (fuel n : Nat) (h : n < fuel) (hmax : n ≤ maxUint) :
    parseDigits (natDigits fuel n []) 0 = .ok n := by
  induction fuel generalizing n with
  | zero => omega
  | succ f ih =>
    simp only [natDigits]
    split
    · rename_i h10
      have hno : ¬ maxUint < 0 * 10 + n := by omega
      simp only [parseDigits, digitVal_digitChar n h10, if_neg hno]
      congr 1
      omega
    · rename_i h10
      have hdiv : n / 10 < f := by omega
      have hmod : n % 10 < 10 := Nat.mod_lt _ (by decide)
      have hno : ¬ maxUint < n / 10 * 10 + n % 10 := by omega
      rw [natDigits_acc, parseDigits_append, ih (n / 10) hdiv (by omega)]
      simp only [Except.bind, parseDigits, digitVal_digitChar _ hmod, if_neg hno]
      congr 1
      omega

theorem natDigits_head (fuel n : Nat) (h : n < fuel) :
    ∃ d rest, d < 10 ∧ natDigits fuel n [] = digitChar d :: rest := by
  induction fuel generalizing n with
  | zero => omega
  | succ f ih =>
    simp only [natDigits]
    split
    · rename_i h10
      exact ⟨n, [], h10, rfl⟩
    · have hdiv : n / 10 < f := by omega
      obtain ⟨d, rest, hd, hrest⟩ := ih (n / 10) hdiv
      refine ⟨d, rest ++ [digitChar (n % 10)], hd, ?_⟩
      rw [natDigits_acc, hrest]
      simp

/-- `Atoi` only returns values of a Go `int`. -/
theorem Atoi_range (s : String) (n : Int) (h : Atoi s = .ok n) : minInt ≤ n ∧ n ≤ maxInt := by
  unfold Atoi at h
  simp only at h
  by_cases hneg : s.data.head? = some '-'
  all_goals simp only [hneg, true_or, if_true, if_false] at h
  all_goals repeat' split at h
  all_goals (cases h <;> omega)

/-- `Atoi` reads back what `Itoa` writes for a non-negative `int`. -/
theorem Atoi_Itoa (m : Int) (h0 : 0 ≤ m) (hmax : m ≤ maxInt) : Atoi (Itoa m) = .ok m := by
  obtain ⟨d, rest, hd, hrest⟩ := natDigits_head (m.natAbs + 1) m.natAbs (by omega)
  have hfits : m.natAbs ≤ maxUint := by
    simp only [maxInt, maxUint, intSize] at *
    omega
  have hparse := parseDigits_natDigits (m.natAbs + 1) m.natAbs (by omega) hfits
  have hsign := digitChar_ne_sign d hd
  have hItoa : (Itoa m).data = digitChar d :: rest := by
    unfold Itoa
    rw [if_neg (by omega)]
    exact hrest
  have hmin : minInt ≤ m := by
    have : minInt ≤ 0 := by decide
    omega
  unfold Atoi
  simp only [hItoa, List.head?_cons, Option.some.injEq, hsign.1, hsign.2, or_self, if_false,
    reduceCtorEq]
  rw [← hrest, hparse]
  have hcast : ((m.natAbs : Nat) : Int) = m := by omega
  simp only [hcast]
  rw [if_neg (by omega)]

/-- Decrementing an `int` above the smallest one is exact. -/
theorem wrapInt_pred (n : Int) (hmin : minInt < n) (hmax : n ≤ maxInt) :
    wrapInt (n - 1) = n - 1 := by
  unfold wrapInt
  simp only [minInt, maxInt, intSize] at *
  omega

/-! ## Facts about the store -/

theorem getManagedCluster_ok {env : Env} {st : Store} {name : String} {mc : ManagedCluster}
    (h : getManagedCluster env st name = .ok mc) :
    env.getClusterFault name = none ∧ st.findCluster name = some mc := by
  unfold getManagedCluster at h
  cases h1 : env.getClusterFault name with
  | some e => simp [h1] at h
  | none =>
    cases h2 : st.findCluster name with
    | none => simp [h1, h2] at h
    | some c =>
      simp only [h1, h2, Except.ok.injEq] at h
      exact ⟨rfl, by rw [h]⟩

theorem getSecret_ok {env : Env} {st : Store} {ns name : String} {s : Secret}
    (h : getSecret env st ns name = .ok s) :
    env.getSecretFault ns name = none ∧ st.findSecret ns name = some s := by
  unfold getSecret at h
  cases h1 : env.getSecretFault ns name with
  | some e => simp [h1] at h
  | none =>
    cases h2 : st.findSecret ns name with
    | none => simp [h1, h2] at h
    | some c =>
      simp only [h1, h2, Except.ok.injEq] at h
      exact ⟨rfl, by rw [h]⟩

theorem findSecret_key {st : Store} {ns name : String} {s : Secret}
    (h : st.findSecret ns name = some s) : s.Namespace = ns ∧ s.Name = name := by
  have := List.find?_some h
  simpa [Secret.hasKey] using this

theorem findCluster_key {st : Store} {name : String} {mc : ManagedCluster}
    (h : st.findCluster name = some mc) : mc.Name = name := by
  have := List.find?_some h
  simpa using this

theorem findSecret_removeSecret (st : Store) (ns name : String) :
    (st.removeSecret ns name).findSecret ns name = none := by
  simp [Store.findSecret, Store.removeSecret]

theorem find?_map_replace {α : Type} (p : α → Bool) (new : α) (hnew : p new = true)
    (l : List α) (old : α) (h : l.find? p = some old) :
    (l.map (fun x => if p x then new else x)).find? p = some new := by
  induction l with
  | nil => simp at h
  | cons a t ih =>
    by_cases hp : p a = true
    · simp [List.find?, hp, hnew]
    · rw [List.find?_cons_of_neg _ hp] at h
      rw [List.map_cons, if_neg hp, List.find?_cons_of_neg _ hp]
      exact ih h

theorem findSecret_replaceSecret (st : Store) (obj old : Secret)
    (h : st.findSecret obj.Namespace obj.Name = some old) :
    (st.replaceSecret obj).findSecret obj.Namespace obj.Name = some obj := by
  unfold Store.findSecret Store.replaceSecret
  exact find?_map_replace (Secret.hasKey obj.Namespace obj.Name) obj (by simp [Secret.hasKey])
    st.secrets old h

theorem find?_map_update {α : Type} (p : α → Bool) (f : α → α) (hf : ∀ x, p (f x) = p x)
    (l : List α) : (l.map f).find? p = (l.find? p).map f := by
  induction l with
  | nil => simp
  | cons a t ih =>
    by_cases hp : p a = true
    · rw [List.map_cons, List.find?_cons_of_pos _ (by rw [hf]; exact hp),
        List.find?_cons_of_pos _ hp]
      rfl
    · rw [List.map_cons, List.find?_cons_of_neg _ (by rw [hf]; exact hp),
        List.find?_cons_of_neg _ hp]
      exact ih

theorem find?_filter_of_imp {α : Type} (p q : α → Bool) (h : ∀ x, p x = true → q x = true)
    (l : List α) : (l.filter q).find? p = l.find? p := by
  induction l with
  | nil => rfl
  | cons a t ih =>
    by_cases hq : q a = true
    · rw [List.filter_cons_of_pos hq]
      by_cases hp : p a = true
      · rw [List.find?_cons_of_pos _ hp, List.find?_cons_of_pos _ hp]
      · rw [List.find?_cons_of_neg _ hp, List.find?_cons_of_neg _ hp]
        exact ih
    · have hp : ¬ p a = true := fun hp => hq (h a hp)
      rw [List.filter_cons_of_neg hq, List.find?_cons_of_neg _ hp]
      exact ih

theorem findCluster_replaceConditions (st : Store) (name : String) (conds : List Condition)
    (mc : ManagedCluster) (h : st.findCluster name = some mc) :
    (st.replaceConditions name conds).findCluster name = some { mc with Conditions := conds } := by
  unfold Store.findCluster Store.replaceConditions at *
  have hname : mc.Name = name := by simpa using List.find?_some h
  rw [find?_map_update]
  · simp [h, hname]
  · intro x
    by_cases hx : x.Name = name <;> simp [hx]

theorem mem_setCondition (conds : List Condition) (cond : Condition) :
    cond ∈ setCondition conds cond := by
  unfold setCondition
  split
  · rename_i h
    obtain ⟨c, hc, hty⟩ := List.any_eq_true.mp h
    exact List.mem_map.mpr ⟨c, hc, by simp [hty]⟩
  · simp

theorem dataGet_dataSet_same (m : List (String × String)) (key value : String) :
    dataGet (dataSet m key value) key = some value := by
  simp [dataGet, dataSet]

theorem dataGet_dataSet_other (m : List (String × String)) (key value other : String)
    (h : other ≠ key) : dataGet (dataSet m key value) other = dataGet m other := by
  have hk : ¬ ((fun e : String × String => e.1 == other) (key, value) = true) := by
    simpa using fun e : key = other => h e.symm
  unfold dataGet dataSet
  rw [@List.find?_cons_of_neg _ (fun e : String × String => e.1 == other) (key, value) _ hk,
    find?_filter_of_imp]
  intro x hx
  have hx1 : x.1 = other := by simpa using hx
  simpa [hx1] using h

theorem findCluster_removeSecret (st : Store) (ns name c : String) :
    (st.removeSecret ns name).findCluster c = st.findCluster c := rfl

theorem findCluster_replaceSecret (st : Store) (obj : Secret) (c : String) :
    (st.replaceSecret obj).findCluster c = st.findCluster c := rfl

theorem findSecret_replaceConditions (st : Store) (c : String) (conds : List Condition)
    (ns name : String) :
    (st.replaceConditions c conds).findSecret ns name = st.findSecret ns name := rfl

theorem secrets_replaceConditions (st : Store) (c : String) (conds : List Condition) :
    (st.replaceConditions c conds).secrets = st.secrets := rfl

/-! ## The pass, case by case -/

theorem Reconcile_of_reachesImport {env : Env} {request : Request} {st : Store}
    {autoImportSecret importSecret : Secret} {importClient : ImportClient}
    (h : ReachesImport env request st autoImportSecret importSecret importClient) :
    Reconcile env request st =
      importAndReport env request.Namespace autoImportSecret importClient importSecret
        { store := st, trace := loadTrace env request autoImportSecret } := by
  obtain ⟨⟨mc, h1⟩, h2, h3, h4⟩ := h
  simp [Reconcile, clientGetCluster, clientGetSecret, GenerateClientFromSecret, h1, h2, h3, h4,
    errOf, loadTrace]

/-- What a pass that reaches the import finds in the store. -/
theorem ReachesImport.found {env : Env} {request : Request} {st : Store}
    {autoImportSecret importSecret : Secret} {importClient : ImportClient}
    (h : ReachesImport env request st autoImportSecret importSecret importClient) :
    (∃ mc, st.findCluster request.Namespace = some mc) ∧
    st.findSecret request.Namespace env.constants.AutoImportSecretName = some autoImportSecret ∧
    autoImportSecret.Namespace = request.Namespace ∧
    autoImportSecret.Name = env.constants.AutoImportSecretName := by
  obtain ⟨⟨mc, h1⟩, h2, _, _⟩ := h
  obtain ⟨_, hs⟩ := getSecret_ok h2
  exact ⟨⟨mc, (getManagedCluster_ok h1).2⟩, hs, findSecret_key hs⟩

/-- The condition write: its answer, its call and its effect on the store. -/
theorem UpdateManagedClusterStatus_secrets (env : Env) (name : String) (cond : Condition)
    (w : World) :
    (UpdateManagedClusterStatus env name cond w).2.store.secrets = w.store.secrets := by
  unfold UpdateManagedClusterStatus
  simp only
  split <;> rfl

theorem UpdateManagedClusterStatus_ok (env : Env) (name : String) (cond : Condition)
    (w : World) (mc : ManagedCluster) (hfault : env.statusFault name cond = none)
    (hmc : w.store.findCluster name = some mc) :
    UpdateManagedClusterStatus env name cond w =
      (none, { store := w.store.replaceConditions name (setCondition mc.Conditions cond),
               trace := w.trace ++ [Event.updateStatus name cond none] }) := by
  simp [UpdateManagedClusterStatus, statusAnswer, hfault, hmc]

/-- The rest of the pass after an import that succeeded. -/
theorem importAndReport_succeeded (env : Env) (name : String) (secret importSecret : Secret)
    (client : ImportClient) (w : World)
    (himport : env.ImportManagedClusterFromSecret client importSecret = none) :
    importAndReport env name secret client importSecret w =
      { result := {},
        err := NewAggregate
          ((if (clientDelete env secret
                { w with trace := w.trace ++ [Event.importCluster client importSecret none] }).1
                ≠ none
            then [(clientDelete env secret
                { w with trace := w.trace ++ [Event.importCluster client importSecret none] }).1]
            else []) ++
           (if (UpdateManagedClusterStatus env name importSucceeded
                (recorderEventf "AutoImportSecretDeleted"
                  ("The managed cluster " ++ name ++ " is imported, delete its auto import secret")
                  (clientDelete env secret
                    { w with trace :=
                        w.trace ++ [Event.importCluster client importSecret none] }).2)).1 ≠ none
            then [(UpdateManagedClusterStatus env name importSucceeded
                (recorderEventf "AutoImportSecretDeleted"
                  ("The managed cluster " ++ name ++ " is imported, delete its auto import secret")
                  (clientDelete env secret
                    { w with trace :=
                        w.trace ++ [Event.importCluster client importSecret none] }).2)).1]
            else [])),
        world := (UpdateManagedClusterStatus env name importSucceeded
                (recorderEventf "AutoImportSecretDeleted"
                  ("The managed cluster " ++ name ++ " is imported, delete its auto import secret")
                  (clientDelete env secret
                    { w with trace :=
                        w.trace ++ [Event.importCluster client importSecret none] }).2)).2 } := by
  simp only [importAndReport, ImportManagedClusterFromSecret, himport, List.length_nil, if_true]
  split <;> simp

/-- The rest of the pass after an import that failed with `e`. -/
theorem importAndReport_failed (env : Env) (name : String) (secret importSecret : Secret)
    (client : ImportClient) (w : World) (e : Err)
    (himport : env.ImportManagedClusterFromSecret client importSecret = some e) :
    importAndReport env name secret client importSecret w =
      { result := {},
        err := NewAggregate
          ([some e, (updateAutoImportRetryTimes env secret
              { w with trace :=
                  w.trace ++ [Event.importCluster client importSecret (some e)] }).1] ++
           (if (UpdateManagedClusterStatus env name (importFailed name e)
                  (updateAutoImportRetryTimes env secret
                    { w with trace :=
                        w.trace ++ [Event.importCluster client importSecret (some e)] }).2).1
                ≠ none
            then [(UpdateManagedClusterStatus env name (importFailed name e)
                  (updateAutoImportRetryTimes env secret
                    { w with trace :=
                        w.trace ++ [Event.importCluster client importSecret (some e)] }).2).1]
            else [])),
        world := (UpdateManagedClusterStatus env name (importFailed name e)
                  (updateAutoImportRetryTimes env secret
                    { w with trace :=
                        w.trace ++ [Event.importCluster client importSecret (some e)] }).2).2 } := by
  simp only [importAndReport, ImportManagedClusterFromSecret, himport]
  split
  · rename_i hlen
    simp at hlen
  · simp
    split <;> simp_all

/-- An unreadable retry counter: a warning, and the error of `Atoi`. -/
theorem updateAutoImportRetryTimes_invalid (env : Env) (secret : Secret) (w : World) (pe : Err)
    (h : secret.retry = .error pe) :
    updateAutoImportRetryTimes env secret w =
      (some pe, recorderWarningf "AutoImportRetryInvalid"
        "The value of autoImportRetry is invalid in auto-import-secret secret" w) := by
  unfold Secret.retry at h
  simp [updateAutoImportRetryTimes, h]

/-- A retry counter of at least one: the decremented counter is written back. -/
theorem updateAutoImportRetryTimes_decrement (env : Env) (secret : Secret) (w : World) (n : Int)
    (h : secret.retry = .ok n) (hn : 1 ≤ n) :
    updateAutoImportRetryTimes env secret w =
      clientUpdate env (secret.withRetry (Itoa (n - 1)))
        (recorderEventf "RetryToImportCluster"
          ("Retry to import cluster " ++ secret.Namespace ++ ", " ++ Itoa n) w) := by
  unfold Secret.retry at h
  have hr := Atoi_range _ _ h
  have hw : wrapInt (n - 1) = n - 1 := wrapInt_pred n (by have : minInt < 0 := by decide
                                                          omega) hr.2
  simp only [updateAutoImportRetryTimes, h, hw]
  rw [if_neg (by omega)]

/-- A retry counter of at most zero, the smallest `int` apart: the secret is deleted. -/
theorem updateAutoImportRetryTimes_exhausted (env : Env) (secret : Secret) (w : World) (n : Int)
    (h : secret.retry = .ok n) (hn : n ≤ 0) (hmin : minInt < n) :
    updateAutoImportRetryTimes env secret w =
      match clientDelete env secret
        (recorderEventf "RetryToImportCluster"
          ("Retry to import cluster " ++ secret.Namespace ++ ", " ++ Itoa n) w) with
      | (some err, w) => (some err, w)
      | (none, w) =>
        (none, recorderEventf "AutoImportSecretDeleted"
          ("Exceed the retry times, delete the auto import secret "
            ++ secret.Namespace ++ "/" ++ secret.Name) w) := by
  unfold Secret.retry at h
  have hr := Atoi_range _ _ h
  have hw : wrapInt (n - 1) = n - 1 := wrapInt_pred n hmin hr.2
  simp only [updateAutoImportRetryTimes, h, hw]
  rw [if_pos (by omega)]

/-- The calls of `updateAutoImportRetryTimes`: at most one write of the secret, and
no call of another kind than a write or a recorder event. -/
theorem updateAutoImportRetryTimes_trace (env : Env) (secret : Secret) (w : World) :
    ∃ rest, (updateAutoImportRetryTimes env secret w).2.trace = w.trace ++ rest ∧
      (∀ ev ∈ rest, ev.isFollowUp = true ∧ ev.isStatusWrite = false) ∧
      (rest.filter Event.isSecretWrite).length ≤ 1 := by
  unfold updateAutoImportRetryTimes
  cases Atoi (bytesToString (dataGet secret.Data autoImportRetryName)) with
  | error pe =>
    exact ⟨[Event.warningf "AutoImportRetryInvalid"
        "The value of autoImportRetry is invalid in auto-import-secret secret"],
      by simp [recorderWarningf], by simp [Event.isFollowUp, Event.isStatusWrite],
      by simp [Event.isSecretWrite, Event.isDelete, Event.isUpdate]⟩
  | ok n =>
    simp only
    by_cases hneg : wrapInt (n - 1) < 0
    · rw [if_pos hneg]
      cases hdel : deleteAnswer env w.store secret with
      | some err =>
        exact ⟨[Event.eventf "RetryToImportCluster"
            ("Retry to import cluster " ++ secret.Namespace ++ ", " ++ Itoa n),
            Event.delete secret (some err)],
          by simp [clientDelete, recorderEventf, hdel],
          by simp [Event.isFollowUp, Event.isStatusWrite],
          by simp [Event.isSecretWrite, Event.isDelete, Event.isUpdate]⟩
      | none =>
        exact ⟨[Event.eventf "RetryToImportCluster"
            ("Retry to import cluster " ++ secret.Namespace ++ ", " ++ Itoa n),
            Event.delete secret none,
            Event.eventf "AutoImportSecretDeleted"
              ("Exceed the retry times, delete the auto import secret "
                ++ secret.Namespace ++ "/" ++ secret.Name)],
          by simp [clientDelete, recorderEventf, hdel],
          by simp [Event.isFollowUp, Event.isStatusWrite],
          by simp [Event.isSecretWrite, Event.isDelete, Event.isUpdate]⟩
    · rw [if_neg hneg]
      exact ⟨[Event.eventf "RetryToImportCluster"
            ("Retry to import cluster " ++ secret.Namespace ++ ", " ++ Itoa n),
          Event.update (secret.withRetry (Itoa (wrapInt (n - 1))))
            (updateAnswer env w.store (secret.withRetry (Itoa (wrapInt (n - 1)))))],
        by simp [clientUpdate, recorderEventf],
        by simp [Event.isFollowUp, Event.isStatusWrite],
        by simp [Event.isSecretWrite, Event.isDelete, Event.isUpdate]⟩

/-- The calls of the part of a pass that follows the client construction: the import,
then at most one write of the auto-import secret, then a condition write as the last
call. -/
theorem importAndReport_trace (env : Env) (name : String) (secret importSecret : Secret)
    (client : ImportClient) (w : World) :
    ∃ rest cond answer,
      (importAndReport env name secret client importSecret w).world.trace =
        w.trace ++ Event.importCluster client importSecret
            (env.ImportManagedClusterFromSecret client importSecret) :: rest
          ++ [Event.updateStatus name cond answer] ∧
      (∀ ev ∈ rest, ev.isFollowUp = true ∧ ev.isStatusWrite = false) ∧
      (rest.filter Event.isSecretWrite).length ≤ 1 := by
  cases himport : env.ImportManagedClusterFromSecret client importSecret with
  | none =>
    rw [importAndReport_succeeded env name secret importSecret client w himport]
    exact ⟨[Event.delete secret (deleteAnswer env w.store secret),
        Event.eventf "AutoImportSecretDeleted"
          ("The managed cluster " ++ name ++ " is imported, delete its auto import secret")],
      importSucceeded, _,
      by simp [UpdateManagedClusterStatus, recorderEventf, clientDelete]; rfl,
      by simp [Event.isFollowUp, Event.isStatusWrite],
      by simp [Event.isSecretWrite, Event.isDelete, Event.isUpdate]⟩
  | some e =>
    rw [importAndReport_failed env name secret importSecret client w e himport]
    obtain ⟨rest, htrace, hkind, hlen⟩ := updateAutoImportRetryTimes_trace env secret
      { w with trace := w.trace ++ [Event.importCluster client importSecret (some e)] }
    exact ⟨rest, importFailed name e, _, by simp [UpdateManagedClusterStatus, htrace]; rfl,
      hkind, hlen⟩

theorem setCondition_unique (conds : List Condition) (cond c : Condition)
    (hc : c ∈ setCondition conds cond) (hty : c.Type_ = cond.Type_) : c = cond := by
  unfold setCondition at hc
  split at hc
  · obtain ⟨x, _, hx⟩ := List.mem_map.mp hc
    by_cases hxt : x.Type_ = cond.Type_
    · simp [hxt] at hx
      exact hx.symm
    · simp [hxt] at hx
      exact absurd (hx ▸ hty) hxt
  · rename_i hany
    rcases List.mem_append.mp hc with hmem | hmem
    · exact absurd (List.any_eq_true.mpr ⟨c, hmem, by simp [hty]⟩) hany
    · simpa using hmem

/-- A failed import with a retry counter `n ≤ 0`, the smallest `int` apart, and an
API server that accepts the `Delete` and the condition write: the whole pass. -/
theorem importAndReport_exhausted (env : Env) (request : Request) (st : Store)
    (autoImportSecret importSecret : Secret) (importClient : ImportClient) (e : Err) (n : Int)
    (mc : ManagedCluster)
    (hc : st.findCluster request.Namespace = some mc)
    (hs : st.findSecret autoImportSecret.Namespace autoImportSecret.Name = some autoImportSecret)
    (himport : env.ImportManagedClusterFromSecret importClient importSecret = some e)
    (hretry : autoImportSecret.retry = .ok n) (hn : n ≤ 0) (hmin : minInt < n)
    (hdelete : env.deleteFault autoImportSecret = none)
    (hstatus : env.statusFault request.Namespace (importFailed request.Namespace e) = none)
    (pre : List Event) :
    importAndReport env request.Namespace autoImportSecret importClient importSecret
      { store := st, trace := pre } =
      { result := {},
        err := some (Error.aggregate [e]),
        world :=
          { store := (st.removeSecret autoImportSecret.Namespace
                autoImportSecret.Name).replaceConditions
              request.Namespace (setCondition mc.Conditions (importFailed request.Namespace e)),
            trace := pre ++
              [Event.importCluster importClient importSecret (some e),
               Event.eventf "RetryToImportCluster"
                 ("Retry to import cluster " ++ autoImportSecret.Namespace ++ ", " ++ Itoa n),
               Event.delete autoImportSecret none,
               Event.eventf "AutoImportSecretDeleted"
                 ("Exceed the retry times, delete the auto import secret "
                   ++ autoImportSecret.Namespace ++ "/" ++ autoImportSecret.Name),
               Event.updateStatus request.Namespace (importFailed request.Namespace e) none] } } := by
  have hc2 : (st.removeSecret autoImportSecret.Namespace autoImportSecret.Name).findCluster
      request.Namespace = some mc := hc
  simp [importAndReport_failed, himport,
    updateAutoImportRetryTimes_exhausted _ _ _ n hretry hn hmin, clientDelete, deleteAnswer,
    hdelete, hs, recorderEventf, UpdateManagedClusterStatus_ok, hstatus, hc2, NewAggregate]

/-- A failed import with a retry counter of at least one and an API server that
accepts the `Update` and the condition write: the whole pass. -/
theorem importAndReport_decrement (env : Env) (request : Request) (st : Store)
    (autoImportSecret importSecret : Secret) (importClient : ImportClient) (e : Err) (n : Int)
    (mc : ManagedCluster)
    (hc : st.findCluster request.Namespace = some mc)
    (hs : st.findSecret autoImportSecret.Namespace autoImportSecret.Name = some autoImportSecret)
    (himport : env.ImportManagedClusterFromSecret importClient importSecret = some e)
    (hretry : autoImportSecret.retry = .ok n) (hn : 1 ≤ n)
    (hupdate : env.updateFault (autoImportSecret.withRetry (Itoa (n - 1))) = none)
    (hstatus : env.statusFault request.Namespace (importFailed request.Namespace e) = none)
    (pre : List Event) :
    importAndReport env request.Namespace autoImportSecret importClient importSecret
      { store := st, trace := pre } =
      { result := {},
        err := some (Error.aggregate [e]),
        world :=
          { store := (st.replaceSecret (autoImportSecret.withRetry (Itoa (n - 1)))).replaceConditions
              request.Namespace (setCondition mc.Conditions (importFailed request.Namespace e)),
            trace := pre ++
              [Event.importCluster importClient importSecret (some e),
               Event.eventf "RetryToImportCluster"
                 ("Retry to import cluster " ++ autoImportSecret.Namespace ++ ", " ++ Itoa n),
               Event.update (autoImportSecret.withRetry (Itoa (n - 1))) none,
               Event.updateStatus request.Namespace (importFailed request.Namespace e) none] } } := by
  have hs2 : st.findSecret (autoImportSecret.withRetry (Itoa (n - 1))).Namespace
      (autoImportSecret.withRetry (Itoa (n - 1))).Name = some autoImportSecret := hs
  have hc2 : (st.replaceSecret (autoImportSecret.withRetry (Itoa (n - 1)))).findCluster
      request.Namespace = some mc := hc
  simp [importAndReport_failed, himport, updateAutoImportRetryTimes_decrement _ _ _ n hretry hn,
    clientUpdate, updateAnswer, hupdate, hs2, recorderEventf, UpdateManagedClusterStatus_ok,
    hstatus, hc2, NewAggregate]

/-- A pass either reaches the import, or returns before it with the API server as it
was and nothing but `Get` calls and at most the client construction behind it. -/
theorem Reconcile_early_or_reaches (env : Env) (request : Request) (st : Store) :
    (∃ autoImportSecret importSecret importClient,
      ReachesImport env request st autoImportSecret importSecret importClient) ∨
    ((Reconcile env request st).world.store = st ∧
      ∀ ev ∈ (Reconcile env request st).world.trace,
        ev.isGet = true ∨ ev.isGenerateClient = true) := by
  unfold Reconcile
  simp only [clientGetCluster, clientGetSecret, GenerateClientFromSecret]
  cases h1 : getManagedCluster env st request.Namespace with
  | error err =>
    refine Or.inr ?_
    simp only [errOf]
    split <;> simp [Event.isGet]
  | ok mc =>
    simp only [errOf]
    cases h2 : getSecret env st request.Namespace env.constants.AutoImportSecretName with
    | error err =>
      refine Or.inr ?_
      simp only
      split <;> simp [Event.isGet]
    | ok autoImportSecret =>
      simp only
      cases h3 : getSecret env st request.Namespace (importSecretName env request.Namespace) with
      | error err =>
        refine Or.inr ?_
        simp only
        split <;> simp [Event.isGet]
      | ok importSecret =>
        simp only
        cases h4 : env.GenerateClientFromSecret autoImportSecret with
        | error err =>
          refine Or.inr ?_
          simp [Event.isGet, Event.isGenerateClient]
        | ok importClient =>
          exact Or.inl ⟨autoImportSecret, importSecret, importClient, ⟨mc, h1⟩, h2, h3, h4⟩

/-- The aggregate holds every non-nil error of the list. -/
theorem NewAggregate_of_mem (errlist : List (Option Err)) (e : Err) (h : some e ∈ errlist) :
    ∃ errs, NewAggregate errlist = some (Error.aggregate errs) ∧ e ∈ errs := by
  have hmem : e ∈ errlist.filterMap id := List.mem_filterMap.mpr ⟨some e, h, rfl⟩
  have hlen : errlist.length ≠ 0 := by
    intro h0
    rw [List.length_eq_zero] at h0
    simp [h0] at h
  have hlen2 : (errlist.filterMap id).length ≠ 0 := by
    intro h0
    rw [List.length_eq_zero] at h0
    simp [h0] at hmem
  exact ⟨errlist.filterMap id, by simp only [NewAggregate, if_neg hlen, if_neg hlen2], hmem⟩

/-- The aggregate is nil exactly when every error of the list is. -/
theorem NewAggregate_eq_none (errlist : List (Option Err)) :
    NewAggregate errlist = none ↔ ∀ x ∈ errlist, x = none := by
  constructor
  · intro h x hx
    cases x with
    | none => rfl
    | some e =>
      obtain ⟨errs, he, _⟩ := NewAggregate_of_mem errlist e hx
      rw [h] at he
      cases he
  · intro h
    unfold NewAggregate
    split
    · rfl
    · have : errlist.filterMap id = [] := by
        rw [List.filterMap_eq_nil_iff]
        intro x hx
        rw [h x hx]
        rfl
      simp [this]

/-- An error with which `updateAutoImportRetryTimes` sees its `Delete` answered is the
error it returns. -/
theorem updateAutoImportRetryTimes_delete_error (env : Env) (secret : Secret) (w : World)
    (s : Secret) (e : Err)
    (h : Event.delete s (some e) ∈ (updateAutoImportRetryTimes env secret w).2.trace) :
    Event.delete s (some e) ∈ w.trace ∨ (updateAutoImportRetryTimes env secret w).1 = some e := by
  unfold updateAutoImportRetryTimes at h ⊢
  cases hparse : Atoi (bytesToString (dataGet secret.Data autoImportRetryName)) with
  | error pe =>
    simp only [hparse, recorderWarningf] at h
    simp at h
    exact Or.inl h
  | ok n =>
    simp only [hparse] at h ⊢
    by_cases hneg : wrapInt (n - 1) < 0
    · rw [if_pos hneg] at h ⊢
      cases hdel : deleteAnswer env w.store secret with
      | some err =>
        simp [clientDelete, recorderEventf, hdel] at h ⊢
        rcases h with h | ⟨_, h⟩
        · exact Or.inl h
        · exact Or.inr h.symm
      | none =>
        simp [clientDelete, recorderEventf, hdel] at h ⊢
        exact h
    · rw [if_neg hneg] at h
      simp [clientUpdate, recorderEventf] at h
      exact Or.inl h

/-- An error with which a `Delete` of the part after the client construction is
answered is held by the aggregate that part returns. -/
theorem importAndReport_delete_error (env : Env) (name : String) (secret importSecret : Secret)
    (client : ImportClient) (w : World) (s : Secret) (e : Err)
    (h : Event.delete s (some e)
      ∈ (importAndReport env name secret client importSecret w).world.trace) :
    Event.delete s (some e) ∈ w.trace ∨
      ∃ errs, (importAndReport env name secret client importSecret w).err
        = some (Error.aggregate errs) ∧ e ∈ errs := by
  cases himport : env.ImportManagedClusterFromSecret client importSecret with
  | none =>
    rw [importAndReport_succeeded env name secret importSecret client w himport] at h ⊢
    simp [UpdateManagedClusterStatus, recorderEventf, clientDelete] at h
    rcases h with h | ⟨_, h⟩
    · exact Or.inl h
    · refine Or.inr (NewAggregate_of_mem _ e ?_)
      simp [clientDelete, ← h]
  | some ie =>
    rw [importAndReport_failed env name secret importSecret client w ie himport] at h ⊢
    simp only [UpdateManagedClusterStatus, List.mem_append, List.mem_singleton, reduceCtorEq,
      or_false] at h
    rcases updateAutoImportRetryTimes_delete_error env secret _ s e h with h | h
    · simp at h
      exact Or.inl h
    · refine Or.inr ?_
      dsimp only
      exact NewAggregate_of_mem _ e (by simp [h])

/-! ## Consecutive passes -/

theorem findSecret_replaceSecret_isSome (st : Store) (obj : Secret) (ns name : String)
    (old : Secret) (h : st.findSecret ns name = some old) :
    ∃ s, (st.replaceSecret obj).findSecret ns name = some s := by
  unfold Store.findSecret Store.replaceSecret at *
  rw [find?_map_update, h]
  · exact ⟨_, rfl⟩
  · intro x
    by_cases hx : Secret.hasKey obj.Namespace obj.Name x = true
    · rw [if_pos hx]
      simp only [Secret.hasKey, Bool.and_eq_true, beq_iff_eq] at hx
      simp [Secret.hasKey, hx.1, hx.2]
    · rw [if_neg hx]

theorem Pending.reaches {env : Env} {request : Request} {st : Store} {m : Int}
    (henv : FailingImports env) (h : Pending env request st m) :
    ∃ mc secret importSecret client e,
      st.findCluster request.Namespace = some mc ∧
      secret.retry = .ok m ∧
      ReachesImport env request st secret importSecret client ∧
      env.ImportManagedClusterFromSecret client importSecret = some e := by
  obtain ⟨⟨mc, hc⟩, ⟨secret, hs, hretry⟩, ⟨importSecret, hi⟩⟩ := h
  obtain ⟨client, hclient⟩ := henv.client secret
  obtain ⟨e, he⟩ := henv.imported client importSecret
  refine ⟨mc, secret, importSecret, client, e, hc, hretry, ⟨⟨mc, ?_⟩, ?_, ?_, hclient⟩, he⟩
  · simp [getManagedCluster, henv.getCluster, hc]
  · simp [getSecret, henv.getSecret, hs]
  · simp [getSecret, henv.getSecret, hi]

/-- A pass with a pending counter of at least one leaves the counter one lower, as
the decimal text of the new value, after exactly one import. -/
theorem Pending.step_decrement {env : Env} {request : Request} {st : Store} {m : Int}
    (henv : FailingImports env) (h : Pending env request st m) (hm : 1 ≤ m) :
    Pending env request (Reconcile env request st).world.store (m - 1) ∧
    (∃ stored, (Reconcile env request st).world.store.findSecret request.Namespace
        env.constants.AutoImportSecretName = some stored ∧
      dataGet stored.Data autoImportRetryName = some (Itoa (m - 1))) ∧
    ((Reconcile env request st).world.trace.filter Event.isImport).length = 1 := by
  obtain ⟨mc, secret, importSecret, client, e, hc, hretry, hreach, he⟩ := h.reaches henv
  obtain ⟨_, _, ⟨imp0, hi⟩⟩ := h
  obtain ⟨_, hs, hns, hname⟩ := hreach.found
  have hs3 : st.findSecret secret.Namespace secret.Name = some secret := by
    rw [hns, hname]
    exact hs
  rw [Reconcile_of_reachesImport hreach,
    importAndReport_decrement env request st secret importSecret client e m mc hc hs3 he hretry hm
      (henv.update _) (henv.status _ _) (loadTrace env request secret)]
  have hrange := Atoi_range _ _ hretry
  have hfind : (st.replaceSecret (secret.withRetry (Itoa (m - 1)))).findSecret request.Namespace
      env.constants.AutoImportSecretName = some (secret.withRetry (Itoa (m - 1))) := by
    have := findSecret_replaceSecret st (secret.withRetry (Itoa (m - 1))) secret hs3
    simpa [Secret.withRetry, hns, hname] using this
  have hnew : (secret.withRetry (Itoa (m - 1))).retry = .ok (m - 1) := by
    unfold Secret.retry Secret.withRetry
    simp only [dataGet_dataSet_same, bytesToString, Option.getD_some]
    exact Atoi_Itoa (m - 1) (by omega) (by omega)
  refine ⟨⟨⟨_, findCluster_replaceConditions _ _ _ mc hc⟩,
      ⟨secret.withRetry (Itoa (m - 1)), ?_, hnew⟩, ?_⟩,
    ⟨secret.withRetry (Itoa (m - 1)), ?_, ?_⟩, ?_⟩
  · rw [findSecret_replaceConditions]
    exact hfind
  · simp only [findSecret_replaceConditions]
    exact findSecret_replaceSecret_isSome st _ _ _ imp0 hi
  · rw [findSecret_replaceConditions]
    exact hfind
  · exact dataGet_dataSet_same _ _ _
  · simp [loadTrace, List.filter, Event.isImport]

/-- A pass with a pending counter of zero deletes the auto-import secret, after
exactly one import. -/
theorem Pending.step_exhausted {env : Env} {request : Request} {st : Store}
    (henv : FailingImports env) (h : Pending env request st 0) :
    (Reconcile env request st).world.store.findSecret request.Namespace
        env.constants.AutoImportSecretName = none ∧
    ((Reconcile env request st).world.trace.filter Event.isImport).length = 1 := by
  obtain ⟨mc, secret, importSecret, client, e, hc, hretry, hreach, he⟩ := h.reaches henv
  obtain ⟨_, hs, hns, hname⟩ := hreach.found
  have hs3 : st.findSecret secret.Namespace secret.Name = some secret := by
    rw [hns, hname]
    exact hs
  rw [Reconcile_of_reachesImport hreach,
    importAndReport_exhausted env request st secret importSecret client e 0 mc hc hs3 he hretry
      (le_refl 0) (by decide) (henv.delete _) (henv.status _ _) (loadTrace env request secret)]
  refine ⟨?_, ?_⟩
  · rw [findSecret_replaceConditions, hns, hname]
    exact findSecret_removeSecret _ _ _
  · simp [loadTrace, List.filter, Event.isImport]

/-- A pass without an auto-import secret is a no-op that returns success. -/
theorem Reconcile_absent {env : Env} {request : Request} {st : Store}
    (henv : FailingImports env)
    (h : st.findSecret request.Namespace env.constants.AutoImportSecretName = none) :
    (Reconcile env request st).err = none ∧
    (Reconcile env request st).result.Requeue = false ∧
    (Reconcile env request st).world.store = st ∧
    (∀ ev ∈ (Reconcile env request st).world.trace, ev.isGet = true) := by
  have hsec : getSecret env st request.Namespace env.constants.AutoImportSecretName
      = .error (notFoundErr (request.Namespace ++ "/" ++ env.constants.AutoImportSecretName)) := by
    simp [getSecret, henv.getSecret, h]
  cases hc : st.findCluster request.Namespace with
  | none =>
    have hcl : getManagedCluster env st request.Namespace
        = .error (notFoundErr request.Namespace) := by
      simp [getManagedCluster, henv.getCluster, hc]
    simp [Reconcile, clientGetCluster, hcl, errOf, IsNotFound, notFoundErr, Event.isGet]
  | some mc =>
    have hcl : getManagedCluster env st request.Namespace = .ok mc := by
      simp [getManagedCluster, henv.getCluster, hc]
    simp [Reconcile, clientGetCluster, clientGetSecret, hcl, hsec, errOf, IsNotFound, notFoundErr,
      Event.isGet]

/-- Once the auto-import secret is gone, further passes change nothing and import
nothing. -/
theorem passes_absent {env : Env} {request : Request} (henv : FailingImports env) (k : Nat)
    (st : Store)
    (h : st.findSecret request.Namespace env.constants.AutoImportSecretName = none) :
    (passes env request k st).1 = st ∧
    ((passes env request k st).2.filter Event.isImport).length = 0 := by
  induction k with
  | zero => exact ⟨rfl, rfl⟩
  | succ k ih =>
    obtain ⟨_, _, hstore, hgets⟩ := Reconcile_absent henv h
    simp only [passes, hstore, ih.1, List.filter_append, List.length_append, ih.2, add_zero,
      true_and]
    rw [List.length_eq_zero, List.filter_eq_nil_iff]
    intro ev hev
    have := hgets ev hev
    cases ev <;> simp [Event.isGet, Event.isImport] at this ⊢

/-- The retry budget over consecutive passes with failing imports, from a pending
counter `m`. -/
theorem passes_pending {env : Env} {request : Request} (henv : FailingImports env) (k : Nat) :
    ∀ (st : Store) (m : Int), 0 ≤ m → Pending env request st m →
      (((k : Int) ≤ m →
        Pending env request (passes env request k st).1 (m - k) ∧
        (1 ≤ k → ∃ stored, (passes env request k st).1.findSecret request.Namespace
            env.constants.AutoImportSecretName = some stored ∧
          dataGet stored.Data autoImportRetryName = some (Itoa (m - k))) ∧
        ((passes env request k st).2.filter Event.isImport).length = k) ∧
      (m < (k : Int) →
        (passes env request k st).1.findSecret request.Namespace
          env.constants.AutoImportSecretName = none ∧
        ((passes env request k st).2.filter Event.isImport).length = (m + 1).toNat)) := by
  induction k with
  | zero =>
    intro st m hm hp
    refine ⟨fun _ => ⟨by simpa [passes] using hp, fun h => absurd h (by omega), rfl⟩,
      fun h => absurd h (by simp; omega)⟩
  | succ k ih =>
    intro st m hm hp
    simp only [passes, List.filter_append, List.length_append]
    by_cases hm1 : 1 ≤ m
    · obtain ⟨hp1, htext, hcount⟩ := hp.step_decrement henv hm1
      obtain ⟨ihle, ihlt⟩ := ih (Reconcile env request st).world.store (m - 1) (by omega) hp1
      have hcast : m - ((k + 1 : Nat) : Int) = m - 1 - (k : Int) := by
        push_cast
        ring
      refine ⟨fun hle => ?_, fun hlt => ?_⟩
      · obtain ⟨hp2, htext2, hcount2⟩ := ihle (by push_cast at hle; omega)
        rw [hcast]
        refine ⟨hp2, fun _ => ?_, by rw [hcount, hcount2]; omega⟩
        by_cases hk : 1 ≤ k
        · exact htext2 hk
        · have hk0 : k = 0 := by omega
          subst hk0
          simpa [passes] using htext
      · obtain ⟨hnone, hcount2⟩ := ihlt (by push_cast at hlt; omega)
        refine ⟨hnone, ?_⟩
        rw [hcount, hcount2]
        omega
    · have hm0 : m = 0 := by omega
      subst hm0
      obtain ⟨hnone, hcount⟩ := hp.step_exhausted henv
      obtain ⟨hstore, hcount2⟩ := passes_absent henv k _ hnone
      refine ⟨fun hle => absurd hle (by push_cast; omega), fun _ => ?_⟩
      rw [hstore, hcount, hcount2]
      exact ⟨hnone, rfl⟩

/-! ## The claims -/

/-- C1: in every pass in which the managed cluster, the auto-import secret and
the import secret are found, the client construction and the import succeed, and the
API server accepts the `Delete` and the condition write, the auto-import secret no longer
exists afterwards, whatever its retry counter holds; the one condition written is
`ManagedClusterImportSucceeded` with status true and reason `ManagedClusterImported`,
it is the only condition of its type on the managed cluster, and the pass returns no
error. -/
theorem succeeded_import_deletes_secret (env : Env) (request : Request) (st : Store)
    (autoImportSecret importSecret : Secret) (importClient : ImportClient)
    (h : ReachesImport env request st autoImportSecret importSecret importClient)
    (himport : env.ImportManagedClusterFromSecret importClient importSecret = none)
    (hdelete : env.deleteFault autoImportSecret = none)
    (hstatus : env.statusFault request.Namespace importSucceeded = none) :
    (Reconcile env request st).world.store.findSecret request.Namespace
        env.constants.AutoImportSecretName = none ∧
    (Reconcile env request st).world.trace = loadTrace env request autoImportSecret ++
      [Event.importCluster importClient importSecret none,
       Event.delete autoImportSecret none,
       Event.eventf "AutoImportSecretDeleted" ("The managed cluster " ++ request.Namespace
          ++ " is imported, delete its auto import secret"),
       Event.updateStatus request.Namespace importSucceeded none] ∧
    importSucceeded.Type_ = "ManagedClusterImportSucceeded" ∧
    importSucceeded.Status = ConditionStatus.ConditionTrue ∧
    importSucceeded.Reason = "ManagedClusterImported" ∧
    (∃ mc, (Reconcile env request st).world.store.findCluster request.Namespace = some mc ∧
      importSucceeded ∈ mc.Conditions ∧
      ∀ c ∈ mc.Conditions, c.Type_ = "ManagedClusterImportSucceeded" → c = importSucceeded) ∧
    (Reconcile env request st).err = none := by
  rw [Reconcile_of_reachesImport h]
  obtain ⟨⟨mc, hc⟩, hs, hns, hname⟩ := h.found
  have hc2 : (st.removeSecret request.Namespace env.constants.AutoImportSecretName).findCluster
      request.Namespace = some mc := hc
  refine ⟨?_, ?_, rfl, rfl, rfl, ?_, ?_⟩
  · simp [importAndReport_succeeded, himport, clientDelete, deleteAnswer, hdelete, hns, hname,
      hs, recorderEventf, UpdateManagedClusterStatus_ok, hstatus, hc2,
      findSecret_replaceConditions, findSecret_removeSecret]
  · simp [importAndReport_succeeded, himport, clientDelete, deleteAnswer, hdelete, hns, hname,
      hs, recorderEventf, UpdateManagedClusterStatus_ok, hstatus, hc2]
  · refine ⟨{ mc with Conditions := setCondition mc.Conditions importSucceeded }, ?_,
      mem_setCondition _ _, fun c hmem hty => setCondition_unique _ _ c hmem hty⟩
    simp [importAndReport_succeeded, himport, clientDelete, deleteAnswer, hdelete, hns, hname,
      hs, recorderEventf, UpdateManagedClusterStatus_ok, hstatus, hc2,
      findCluster_replaceConditions]
  · simp [importAndReport_succeeded, himport, clientDelete, deleteAnswer, hdelete, hns, hname,
      hs, recorderEventf, UpdateManagedClusterStatus_ok, hstatus, hc2, NewAggregate]

/-- The pass of C1 on `cluster1` with the unreadable retry counter `abc`. -/
theorem succeeded_import_deletes_secret_witness :
    ReachesImport (demoEnv (.ok demoClient) none none none) demoRequest
      (demoStore (demoSecret "abc")) (demoSecret "abc") demoImportSecret demoClient ∧
    (Reconcile (demoEnv (.ok demoClient) none none none) demoRequest
      (demoStore (demoSecret "abc"))).world.store.findSecret "cluster1" "auto-import-secret"
        = none ∧
    (Reconcile (demoEnv (.ok demoClient) none none none) demoRequest
      (demoStore (demoSecret "abc"))).err = none :=
  have h := succeeded_import_deletes_secret (demoEnv (.ok demoClient) none none none) demoRequest
    (demoStore (demoSecret "abc")) (demoSecret "abc") demoImportSecret demoClient
    ⟨⟨demoCluster, rfl⟩, rfl, rfl, rfl⟩ rfl rfl rfl
  ⟨⟨⟨demoCluster, rfl⟩, rfl, rfl, rfl⟩, h.1, h.2.2.2.2.2.2⟩

/-- C2: when the retry counter of the auto-import secret reads as `n` with `1 ≤ n`,
the import fails, and the API server accepts the `Update` and the condition write,
then after the pass the secret still exists, its counter is the decimal text of
`n - 1`, every other entry of its data is as before, no `Delete` was issued, and the
condition written has status false. -/
theorem failed_import_decrements_retry (env : Env) (request : Request) (st : Store)
    (autoImportSecret importSecret : Secret) (importClient : ImportClient) (e : Err) (n : Int)
    (h : ReachesImport env request st autoImportSecret importSecret importClient)
    (himport : env.ImportManagedClusterFromSecret importClient importSecret = some e)
    (hretry : autoImportSecret.retry = .ok n) (hn : 1 ≤ n)
    (hupdate : env.updateFault (autoImportSecret.withRetry (Itoa (n - 1))) = none)
    (hstatus : env.statusFault request.Namespace (importFailed request.Namespace e) = none) :
    (∃ stored, (Reconcile env request st).world.store.findSecret request.Namespace
        env.constants.AutoImportSecretName = some stored ∧
      dataGet stored.Data autoImportRetryName = some (Itoa (n - 1)) ∧
      (∀ key, key ≠ autoImportRetryName →
        dataGet stored.Data key = dataGet autoImportSecret.Data key) ∧
      stored.Namespace = autoImportSecret.Namespace ∧ stored.Name = autoImportSecret.Name) ∧
    (∀ ev ∈ (Reconcile env request st).world.trace, ev.isDelete = false) ∧
    Event.update (autoImportSecret.withRetry (Itoa (n - 1))) none
      ∈ (Reconcile env request st).world.trace ∧
    (∀ name cond answer,
      Event.updateStatus name cond answer ∈ (Reconcile env request st).world.trace →
        name = request.Namespace ∧ answer = none ∧
        cond.Type_ = "ManagedClusterImportSucceeded" ∧
        cond.Status = ConditionStatus.ConditionFalse) ∧
    Event.updateStatus request.Namespace (importFailed request.Namespace e) none
      ∈ (Reconcile env request st).world.trace ∧
    (∃ mc, (Reconcile env request st).world.store.findCluster request.Namespace = some mc ∧
      importFailed request.Namespace e ∈ mc.Conditions ∧
      ∀ c ∈ mc.Conditions, c.Type_ = "ManagedClusterImportSucceeded" →
        c.Status = ConditionStatus.ConditionFalse) := by
  rw [Reconcile_of_reachesImport h]
  obtain ⟨⟨mc, hc⟩, hs, hns, hname⟩ := h.found
  have hs2 : st.findSecret (autoImportSecret.withRetry (Itoa (n - 1))).Namespace
      (autoImportSecret.withRetry (Itoa (n - 1))).Name = some autoImportSecret := by
    simpa [Secret.withRetry, hns, hname] using hs
  have hfind := findSecret_replaceSecret st _ _ hs2
  have hc2 : (st.replaceSecret (autoImportSecret.withRetry (Itoa (n - 1)))).findCluster
      request.Namespace = some mc := hc
  have hs3 : st.findSecret autoImportSecret.Namespace autoImportSecret.Name
      = some autoImportSecret := hs2
  have hrun := importAndReport_decrement env request st autoImportSecret importSecret importClient
    e n mc hc hs3 himport hretry hn hupdate hstatus (loadTrace env request autoImportSecret)
  rw [hrun]
  refine ⟨⟨autoImportSecret.withRetry (Itoa (n - 1)), ?_, ?_, ?_, rfl, rfl⟩, ?_, ?_, ?_, ?_, ?_⟩
  · rw [findSecret_replaceConditions]
    simpa [Secret.withRetry, hns, hname] using hfind
  · exact dataGet_dataSet_same _ _ _
  · intro key hkey
    exact dataGet_dataSet_other _ _ _ _ hkey
  · intro ev hev
    simp [loadTrace] at hev
    rcases hev with rfl | rfl | rfl | rfl | rfl | rfl | rfl | rfl <;> rfl
  · simp
  · intro name cond answer hev
    simp [loadTrace] at hev
    obtain ⟨rfl, rfl, rfl⟩ := hev
    exact ⟨rfl, rfl, rfl, rfl⟩
  · simp
  · refine ⟨{ mc with Conditions := setCondition mc.Conditions (importFailed request.Namespace e) },
      ?_, mem_setCondition _ _, fun c hmem hty => ?_⟩
    · exact findCluster_replaceConditions _ _ _ _ hc2
    · rw [setCondition_unique _ _ c hmem hty]
      rfl

/-- The pass of C2 on `cluster1` with the retry counter `3`: the counter left behind
is `2`. -/
theorem failed_import_decrements_retry_witness :
    ReachesImport (demoEnv (.ok demoClient) (some demoImportErr) none none) demoRequest
      (demoStore (demoSecret "3")) (demoSecret "3") demoImportSecret demoClient ∧
    (demoSecret "3").retry = .ok 3 ∧
    (∃ stored, (Reconcile (demoEnv (.ok demoClient) (some demoImportErr) none none) demoRequest
        (demoStore (demoSecret "3"))).world.store.findSecret "cluster1" "auto-import-secret"
          = some stored ∧
      dataGet stored.Data autoImportRetryName = some "2" ∧
      (∀ key, key ≠ autoImportRetryName →
        dataGet stored.Data key = dataGet (demoSecret "3").Data key) ∧
      stored.Namespace = "cluster1" ∧ stored.Name = "auto-import-secret") ∧
    (∀ ev ∈ (Reconcile (demoEnv (.ok demoClient) (some demoImportErr) none none) demoRequest
        (demoStore (demoSecret "3"))).world.trace, ev.isDelete = false) :=
  have h := failed_import_decrements_retry (demoEnv (.ok demoClient) (some demoImportErr) none none)
    demoRequest (demoStore (demoSecret "3")) (demoSecret "3") demoImportSecret demoClient
    demoImportErr 3 ⟨⟨demoCluster, rfl⟩, rfl, rfl, rfl⟩ rfl (by decide) (by decide) rfl rfl
  ⟨⟨⟨demoCluster, rfl⟩, rfl, rfl, rfl⟩, by decide, h.1, h.2.1⟩

/-- The exhausted counter: when the retry counter reads as `n ≤ 0` other than the
smallest `int`, the import fails, and the API server accepts the `Delete` and the
condition write, then after the pass the secret no longer exists, no `Update` was
issued, exactly one `Delete` was, and the condition written has status false. -/
theorem failed_import_exhausted_deletes (env : Env) (request : Request) (st : Store)
    (autoImportSecret importSecret : Secret) (importClient : ImportClient) (e : Err) (n : Int)
    (h : ReachesImport env request st autoImportSecret importSecret importClient)
    (himport : env.ImportManagedClusterFromSecret importClient importSecret = some e)
    (hretry : autoImportSecret.retry = .ok n) (hn : n ≤ 0) (hmin : minInt < n)
    (hdelete : env.deleteFault autoImportSecret = none)
    (hstatus : env.statusFault request.Namespace (importFailed request.Namespace e) = none) :
    (Reconcile env request st).world.store.findSecret request.Namespace
        env.constants.AutoImportSecretName = none ∧
    (∀ ev ∈ (Reconcile env request st).world.trace, ev.isUpdate = false) ∧
    ((Reconcile env request st).world.trace.filter Event.isDelete)
      = [Event.delete autoImportSecret none] ∧
    (∀ name cond answer,
      Event.updateStatus name cond answer ∈ (Reconcile env request st).world.trace →
        name = request.Namespace ∧ answer = none ∧
        cond.Type_ = "ManagedClusterImportSucceeded" ∧
        cond.Status = ConditionStatus.ConditionFalse) ∧
    Event.updateStatus request.Namespace (importFailed request.Namespace e) none
      ∈ (Reconcile env request st).world.trace := by
  rw [Reconcile_of_reachesImport h]
  obtain ⟨⟨mc, hc⟩, hs, hns, hname⟩ := h.found
  have hs3 : st.findSecret autoImportSecret.Namespace autoImportSecret.Name
      = some autoImportSecret := by rw [hns, hname]; exact hs
  rw [importAndReport_exhausted env request st autoImportSecret importSecret importClient
    e n mc hc hs3 himport hretry hn hmin hdelete hstatus (loadTrace env request autoImportSecret)]
  refine ⟨?_, ?_, ?_, ?_, ?_⟩
  · rw [findSecret_replaceConditions, hns, hname]
    exact findSecret_removeSecret _ _ _
  · intro ev hev
    simp [loadTrace] at hev
    rcases hev with rfl | rfl | rfl | rfl | rfl | rfl | rfl | rfl | rfl <;> rfl
  · simp [loadTrace, List.filter, Event.isDelete]
  · intro name cond answer hev
    simp [loadTrace] at hev
    obtain ⟨rfl, rfl, rfl⟩ := hev
    exact ⟨rfl, rfl, rfl, rfl⟩
  · simp

/-- The pass of the exhausted counter on `cluster1` with the retry counter `0`. -/
theorem failed_import_exhausted_deletes_witness :
    ReachesImport (demoEnv (.ok demoClient) (some demoImportErr) none none) demoRequest
      (demoStore (demoSecret "0")) (demoSecret "0") demoImportSecret demoClient ∧
    (demoSecret "0").retry = .ok 0 ∧
    (Reconcile (demoEnv (.ok demoClient) (some demoImportErr) none none) demoRequest
      (demoStore (demoSecret "0"))).world.store.findSecret "cluster1" "auto-import-secret"
        = none ∧
    (∀ ev ∈ (Reconcile (demoEnv (.ok demoClient) (some demoImportErr) none none) demoRequest
        (demoStore (demoSecret "0"))).world.trace, ev.isUpdate = false) :=
  have h := failed_import_exhausted_deletes
    (demoEnv (.ok demoClient) (some demoImportErr) none none)
    demoRequest (demoStore (demoSecret "0")) (demoSecret "0") demoImportSecret demoClient
    demoImportErr 0 ⟨⟨demoCluster, rfl⟩, rfl, rfl, rfl⟩ rfl (by decide) (by decide) (by decide)
    rfl rfl
  ⟨⟨⟨demoCluster, rfl⟩, rfl, rfl, rfl⟩, by decide, h.1, h.2.1⟩

/-- C3 at the smallest `int`: the retry counter `-9223372036854775808` reads as an
integer `n` with `n - 1 < 0`, but the decrement wraps around to the largest `int`.
After the pass with a failed import the secret is still there with the counter
`9223372036854775807`, an `Update` was issued and no `Delete`. -/
theorem smallest_retry_wraps_around :
    ReachesImport (demoEnv (.ok demoClient) (some demoImportErr) none none) demoRequest
      (demoStore (demoSecret "-9223372036854775808")) (demoSecret "-9223372036854775808")
      demoImportSecret demoClient ∧
    (demoSecret "-9223372036854775808").retry = .ok (-9223372036854775808) ∧
    (-9223372036854775808 : Int) - 1 < 0 ∧
    (Reconcile (demoEnv (.ok demoClient) (some demoImportErr) none none) demoRequest
      (demoStore (demoSecret "-9223372036854775808"))).world.store.findSecret
        "cluster1" "auto-import-secret"
      = some ((demoSecret "-9223372036854775808").withRetry "9223372036854775807") ∧
    dataGet ((demoSecret "-9223372036854775808").withRetry "9223372036854775807").Data
      autoImportRetryName = some "9223372036854775807" ∧
    Event.update ((demoSecret "-9223372036854775808").withRetry "9223372036854775807") none
      ∈ (Reconcile (demoEnv (.ok demoClient) (some demoImportErr) none none) demoRequest
          (demoStore (demoSecret "-9223372036854775808"))).world.trace ∧
    (∀ ev ∈ (Reconcile (demoEnv (.ok demoClient) (some demoImportErr) none none) demoRequest
        (demoStore (demoSecret "-9223372036854775808"))).world.trace, ev.isDelete = false) := by
  refine ⟨⟨⟨demoCluster, rfl⟩, rfl, rfl, rfl⟩, ?_, ?_, ?_, ?_, ?_, ?_⟩ <;> decide

/-- C4 as stated fails when the import succeeds: on `cluster1` with the unreadable
retry counter `abc` the pass reaches the import, returns no error and deletes the
auto-import secret. -/
theorem invalid_retry_succeeded_import_deletes :
    ReachesImport (demoEnv (.ok demoClient) none none none) demoRequest
      (demoStore (demoSecret "abc")) (demoSecret "abc") demoImportSecret demoClient ∧
    (demoSecret "abc").retry = .error (numError .badNumber "abc" "invalid syntax") ∧
    (Reconcile (demoEnv (.ok demoClient) none none none) demoRequest
      (demoStore (demoSecret "abc"))).err = none ∧
    Event.delete (demoSecret "abc") none
      ∈ (Reconcile (demoEnv (.ok demoClient) none none none) demoRequest
          (demoStore (demoSecret "abc"))).world.trace ∧
    (Reconcile (demoEnv (.ok demoClient) none none none) demoRequest
      (demoStore (demoSecret "abc"))).world.store.findSecret "cluster1" "auto-import-secret"
        = none := by
  refine ⟨⟨⟨demoCluster, rfl⟩, rfl, rfl, rfl⟩, ?_, ?_, ?_, ?_⟩ <;> decide

/-- C4, amended: when the retry counter of the auto-import secret is absent or does
not read as an `int` and the import fails, the pass returns an aggregate that holds
the error of the import and the error of `Atoi`, issues neither an `Update` nor a
`Delete`, records the warning `AutoImportRetryInvalid`, and leaves the secrets of the
API server as they were. -/
theorem invalid_retry_failed_import_keeps_secret (env : Env) (request : Request) (st : Store)
    (autoImportSecret importSecret : Secret) (importClient : ImportClient) (e pe : Err)
    (h : ReachesImport env request st autoImportSecret importSecret importClient)
    (himport : env.ImportManagedClusterFromSecret importClient importSecret = some e)
    (hretry : autoImportSecret.retry = .error pe) :
    (∃ errs, (Reconcile env request st).err = some (Error.aggregate errs) ∧
      e ∈ errs ∧ pe ∈ errs) ∧
    (∀ ev ∈ (Reconcile env request st).world.trace, ev.isUpdate = false ∧ ev.isDelete = false) ∧
    Event.warningf "AutoImportRetryInvalid"
        "The value of autoImportRetry is invalid in auto-import-secret secret"
      ∈ (Reconcile env request st).world.trace ∧
    (Reconcile env request st).world.store.secrets = st.secrets ∧
    (Reconcile env request st).world.store.findSecret request.Namespace
        env.constants.AutoImportSecretName = some autoImportSecret := by
  rw [Reconcile_of_reachesImport h]
  obtain ⟨_, hs, _, _⟩ := h.found
  rw [importAndReport_failed env _ _ _ _ _ e himport]
  simp only [updateAutoImportRetryTimes_invalid env autoImportSecret _ pe hretry]
  have hsec : (UpdateManagedClusterStatus env request.Namespace (importFailed request.Namespace e)
      (recorderWarningf "AutoImportRetryInvalid"
        "The value of autoImportRetry is invalid in auto-import-secret secret"
        { store := st,
          trace := loadTrace env request autoImportSecret ++
            [Event.importCluster importClient importSecret (some e)] })).2.store.secrets
      = st.secrets := UpdateManagedClusterStatus_secrets _ _ _ _
  refine ⟨?_, ?_, ?_, hsec, ?_⟩
  · split
    · exact ⟨_, by simp [NewAggregate]; rfl, by simp, by simp⟩
    · exact ⟨_, by simp [NewAggregate]; rfl, by simp, by simp⟩
  · intro ev hev
    simp [UpdateManagedClusterStatus, recorderWarningf, loadTrace] at hev
    rcases hev with rfl | rfl | rfl | rfl | rfl | rfl | rfl <;> exact ⟨rfl, rfl⟩
  · simp [UpdateManagedClusterStatus, recorderWarningf]
  · unfold Store.findSecret
    rw [hsec]
    exact hs

/-- The pass of the amended C4 on `cluster1` without a retry counter. -/
theorem invalid_retry_failed_import_keeps_secret_witness :
    ReachesImport (demoEnv (.ok demoClient) (some demoImportErr) none none) demoRequest
      (demoStore demoSecretNoRetry) demoSecretNoRetry demoImportSecret demoClient ∧
    demoSecretNoRetry.retry = .error (numError .badNumber "" "invalid syntax") ∧
    (∃ errs, (Reconcile (demoEnv (.ok demoClient) (some demoImportErr) none none) demoRequest
        (demoStore demoSecretNoRetry)).err = some (Error.aggregate errs) ∧
      demoImportErr ∈ errs ∧ numError .badNumber "" "invalid syntax" ∈ errs) ∧
    (∀ ev ∈ (Reconcile (demoEnv (.ok demoClient) (some demoImportErr) none none) demoRequest
        (demoStore demoSecretNoRetry)).world.trace, ev.isUpdate = false ∧ ev.isDelete = false) :=
  have h := invalid_retry_failed_import_keeps_secret
    (demoEnv (.ok demoClient) (some demoImportErr) none none) demoRequest
    (demoStore demoSecretNoRetry) demoSecretNoRetry demoImportSecret demoClient demoImportErr
    (numError .badNumber "" "invalid syntax") ⟨⟨demoCluster, rfl⟩, rfl, rfl, rfl⟩ rfl
    (by decide)
  ⟨⟨⟨demoCluster, rfl⟩, rfl, rfl, rfl⟩, by decide, h.1, h.2.1⟩

/-- A store without faults of the reads that lacks the managed cluster, the
auto-import secret or the import secret of the request answers one of the three `Get`
calls of a pass with a not-found error, the calls before it having succeeded. -/
theorem absent_record_is_reported (env : Env) (request : Request) (st : Store)
    (hcluster : env.getClusterFault request.Namespace = none)
    (hauto : env.getSecretFault request.Namespace env.constants.AutoImportSecretName = none)
    (himp : env.getSecretFault request.Namespace (importSecretName env request.Namespace)
      = none)
    (habsent : st.findCluster request.Namespace = none ∨
      st.findSecret request.Namespace env.constants.AutoImportSecretName = none ∨
      st.findSecret request.Namespace (importSecretName env request.Namespace) = none) :
    (∃ e, getManagedCluster env st request.Namespace = .error e ∧ IsNotFound (some e) = true) ∨
    (∃ mc e, getManagedCluster env st request.Namespace = .ok mc ∧
      getSecret env st request.Namespace env.constants.AutoImportSecretName = .error e ∧
      IsNotFound (some e) = true) ∨
    (∃ mc autoImportSecret e, getManagedCluster env st request.Namespace = .ok mc ∧
      getSecret env st request.Namespace env.constants.AutoImportSecretName
        = .ok autoImportSecret ∧
      getSecret env st request.Namespace (importSecretName env request.Namespace) = .error e ∧
      IsNotFound (some e) = true) := by
  cases hc : st.findCluster request.Namespace with
  | none =>
    exact Or.inl ⟨notFoundErr request.Namespace, by simp [getManagedCluster, hcluster, hc],
      by simp [IsNotFound, notFoundErr]⟩
  | some mc =>
    have h1 : getManagedCluster env st request.Namespace = .ok mc := by
      simp [getManagedCluster, hcluster, hc]
    cases hs : st.findSecret request.Namespace env.constants.AutoImportSecretName with
    | none =>
      exact Or.inr (Or.inl ⟨mc,
        notFoundErr (request.Namespace ++ "/" ++ env.constants.AutoImportSecretName), h1,
        by simp [getSecret, hauto, hs], by simp [IsNotFound, notFoundErr]⟩)
    | some sec =>
      have h2 : getSecret env st request.Namespace env.constants.AutoImportSecretName
          = .ok sec := by
        simp [getSecret, hauto, hs]
      cases hi : st.findSecret request.Namespace (importSecretName env request.Namespace) with
      | none =>
        exact Or.inr (Or.inr ⟨mc, sec,
          notFoundErr (request.Namespace ++ "/" ++ importSecretName env request.Namespace),
          h1, h2, by simp [getSecret, himp, hi], by simp [IsNotFound, notFoundErr]⟩)
      | some imp =>
        rcases habsent with h | h | h
        · rw [hc] at h
          cases h
        · rw [hs] at h
          cases h
        · rw [hi] at h
          cases h

/-- C5: when the API server answers the `Get` of the managed cluster with a not-found
error, or returns the managed cluster and answers the `Get` of the auto-import secret
with a not-found error, or returns both and answers the `Get` of the import secret
with a not-found error, the pass returns no error and asks for no requeue, leaves the
API server as it was, and calls nothing but `Get`: no `Update`, no `Delete`, no
condition write, no client construction and no import. -/
theorem not_found_is_noop (env : Env) (request : Request) (st : Store)
    (h : (∃ e, getManagedCluster env st request.Namespace = .error e ∧
        IsNotFound (some e) = true) ∨
      (∃ mc e, getManagedCluster env st request.Namespace = .ok mc ∧
        getSecret env st request.Namespace env.constants.AutoImportSecretName = .error e ∧
        IsNotFound (some e) = true) ∨
      (∃ mc autoImportSecret e, getManagedCluster env st request.Namespace = .ok mc ∧
        getSecret env st request.Namespace env.constants.AutoImportSecretName
          = .ok autoImportSecret ∧
        getSecret env st request.Namespace (importSecretName env request.Namespace)
          = .error e ∧
        IsNotFound (some e) = true)) :
    (Reconcile env request st).err = none ∧
    (Reconcile env request st).result.Requeue = false ∧
    (Reconcile env request st).world.store = st ∧
    (∀ ev ∈ (Reconcile env request st).world.trace,
      ev.isGet = true ∧ ev.isUpdate = false ∧ ev.isDelete = false ∧ ev.isStatusWrite = false ∧
      ev.isGenerateClient = false ∧ ev.isImport = false) := by
  rcases h with ⟨e, h1, hnf⟩ | ⟨mc, e, h1, h2, hnf⟩ | ⟨mc, sec, e, h1, h2, h3, hnf⟩
  · have hrun : Reconcile env request st =
        { result := {}, err := none,
          world := { store := st, trace := [Event.getCluster request.Namespace (some e)] } } := by
      simp [Reconcile, clientGetCluster, h1, hnf, errOf]
    rw [hrun]
    refine ⟨rfl, rfl, rfl, ?_⟩
    intro ev hev
    simp at hev
    subst hev
    exact ⟨rfl, rfl, rfl, rfl, rfl, rfl⟩
  · have hrun : Reconcile env request st =
        { result := {}, err := none,
          world := { store := st,
                     trace := [Event.getCluster request.Namespace none,
                       Event.getSecret request.Namespace env.constants.AutoImportSecretName
                         (some e)] } } := by
      simp [Reconcile, clientGetCluster, clientGetSecret, h1, h2, hnf, errOf]
    rw [hrun]
    refine ⟨rfl, rfl, rfl, ?_⟩
    intro ev hev
    simp at hev
    rcases hev with rfl | rfl <;> exact ⟨rfl, rfl, rfl, rfl, rfl, rfl⟩
  · have hrun : Reconcile env request st =
        { result := {}, err := none,
          world := { store := st,
                     trace := [Event.getCluster request.Namespace none,
                       Event.getSecret request.Namespace env.constants.AutoImportSecretName none,
                       Event.getSecret request.Namespace
                         (importSecretName env request.Namespace) (some e)] } } := by
      simp [Reconcile, clientGetCluster, clientGetSecret, h1, h2, h3, hnf, errOf]
    rw [hrun]
    refine ⟨rfl, rfl, rfl, ?_⟩
    intro ev hev
    simp at hev
    rcases hev with rfl | rfl | rfl <;> exact ⟨rfl, rfl, rfl, rfl, rfl, rfl⟩

/-- The passes of C5 on three stores: one without `cluster1`, one without its
auto-import secret and one without its import secret.  Each pass returns no error and
leaves the store as it was; the last one finds the auto-import secret and still
neither imports nor deletes. -/
theorem not_found_is_noop_witness :
    (getManagedCluster (demoEnv (.ok demoClient) none none none)
        { managedClusters := [], secrets := [demoSecret "3", demoImportSecret] } "cluster1"
      = .error (notFoundErr "cluster1") ∧
      IsNotFound (some (notFoundErr "cluster1")) = true ∧
      (Reconcile (demoEnv (.ok demoClient) none none none) demoRequest
        { managedClusters := [], secrets := [demoSecret "3", demoImportSecret] }).err = none ∧
      (Reconcile (demoEnv (.ok demoClient) none none none) demoRequest
        { managedClusters := [], secrets := [demoSecret "3", demoImportSecret] }).world.store
        = { managedClusters := [], secrets := [demoSecret "3", demoImportSecret] }) ∧
    (getSecret (demoEnv (.ok demoClient) none none none)
        { managedClusters := [demoCluster], secrets := [demoImportSecret] }
        "cluster1" "auto-import-secret"
      = .error (notFoundErr "cluster1/auto-import-secret") ∧
      (Reconcile (demoEnv (.ok demoClient) none none none) demoRequest
        { managedClusters := [demoCluster], secrets := [demoImportSecret] }).err = none ∧
      (Reconcile (demoEnv (.ok demoClient) none none none) demoRequest
        { managedClusters := [demoCluster], secrets := [demoImportSecret] }).world.store
        = { managedClusters := [demoCluster], secrets := [demoImportSecret] }) ∧
    (getSecret (demoEnv (.ok demoClient) none none none)
        { managedClusters := [demoCluster], secrets := [demoSecret "3"] }
        "cluster1" "cluster1-import"
      = .error (notFoundErr "cluster1/cluster1-import") ∧
      (Reconcile (demoEnv (.ok demoClient) none none none) demoRequest
        { managedClusters := [demoCluster], secrets := [demoSecret "3"] }).err = none ∧
      (Reconcile (demoEnv (.ok demoClient) none none none) demoRequest
        { managedClusters := [demoCluster], secrets := [demoSecret "3"] }).world.store
        = { managedClusters := [demoCluster], secrets := [demoSecret "3"] } ∧
      (∀ ev ∈ (Reconcile (demoEnv (.ok demoClient) none none none) demoRequest
          { managedClusters := [demoCluster], secrets := [demoSecret "3"] }).world.trace,
        ev.isGet = true ∧ ev.isUpdate = false ∧ ev.isDelete = false ∧
        ev.isStatusWrite = false ∧ ev.isGenerateClient = false ∧ ev.isImport = false)) :=
  have h1 := not_found_is_noop (demoEnv (.ok demoClient) none none none) demoRequest
    { managedClusters := [], secrets := [demoSecret "3", demoImportSecret] }
    (Or.inl ⟨notFoundErr "cluster1", rfl, rfl⟩)
  have h2 := not_found_is_noop (demoEnv (.ok demoClient) none none none) demoRequest
    { managedClusters := [demoCluster], secrets := [demoImportSecret] }
    (Or.inr (Or.inl ⟨demoCluster, notFoundErr "cluster1/auto-import-secret", rfl, rfl, rfl⟩))
  have h3 := not_found_is_noop (demoEnv (.ok demoClient) none none none) demoRequest
    { managedClusters := [demoCluster], secrets := [demoSecret "3"] }
    (Or.inr (Or.inr ⟨demoCluster, demoSecret "3", notFoundErr "cluster1/cluster1-import",
      rfl, rfl, rfl, rfl⟩))
  ⟨⟨rfl, rfl, h1.1, h1.2.2.1⟩, ⟨rfl, h2.1, h2.2.2.1⟩, ⟨rfl, h3.1, h3.2.2.1, h3.2.2.2⟩⟩

/-- C6 as stated fails: on `cluster1` the import succeeds, the API server answers the
`Delete` of the auto-import secret with a not-found error and accepts the condition
write, and the pass returns the aggregate of that not-found error instead of
success. -/
theorem not_found_delete_is_returned :
    ReachesImport (demoEnv (.ok demoClient) none (some demoGoneErr) none) demoRequest
      (demoStore (demoSecret "3")) (demoSecret "3") demoImportSecret demoClient ∧
    IsNotFound (some demoGoneErr) = true ∧
    (Reconcile (demoEnv (.ok demoClient) none (some demoGoneErr) none) demoRequest
      (demoStore (demoSecret "3"))).world.trace =
      [Event.getCluster "cluster1" none,
       Event.getSecret "cluster1" "auto-import-secret" none,
       Event.getSecret "cluster1" "cluster1-import" none,
       Event.generateClient (demoSecret "3") none,
       Event.importCluster demoClient demoImportSecret none,
       Event.delete (demoSecret "3") (some demoGoneErr),
       Event.eventf "AutoImportSecretDeleted"
         "The managed cluster cluster1 is imported, delete its auto import secret",
       Event.updateStatus "cluster1" importSucceeded none] ∧
    (Reconcile (demoEnv (.ok demoClient) none (some demoGoneErr) none) demoRequest
      (demoStore (demoSecret "3"))).err = some (Error.aggregate [demoGoneErr]) := by
  refine ⟨⟨⟨demoCluster, rfl⟩, rfl, rfl, rfl⟩, ?_, ?_, ?_⟩ <;> decide

/-- C6, amended: an error with which the API server answers the `Delete` of the
auto-import secret, a not-found error included, is not absorbed.  After a
succeeded import as on an exhausted retry counter the aggregate the pass returns holds
it, so the pass does not return success. -/
theorem delete_error_is_returned (env : Env) (request : Request) (st : Store)
    (secret : Secret) (e : Err)
    (h : Event.delete secret (some e) ∈ (Reconcile env request st).world.trace) :
    (∃ errs, (Reconcile env request st).err = some (Error.aggregate errs) ∧ e ∈ errs) ∧
    (Reconcile env request st).err ≠ none := by
  have key : ∃ errs, (Reconcile env request st).err = some (Error.aggregate errs) ∧ e ∈ errs := by
    rcases Reconcile_early_or_reaches env request st with ⟨sec, imp, cl, hr⟩ | ⟨_, hearly⟩
    · rw [Reconcile_of_reachesImport hr] at h ⊢
      rcases importAndReport_delete_error env _ _ _ _ _ secret e h with hpre | hagg
      · simp [loadTrace] at hpre
      · exact hagg
    · rcases hearly _ h with hk | hk <;> simp [Event.isGet, Event.isGenerateClient] at hk
  obtain ⟨errs, herr, hmem⟩ := key
  exact ⟨⟨errs, herr, hmem⟩, by rw [herr]; simp⟩

/-- The pass of the amended C6 on `cluster1` with the retry counter `0`, a
failed import and a `Delete` answered with a not-found error. -/
theorem delete_error_is_returned_witness :
    Event.delete (demoSecret "0") (some demoGoneErr)
      ∈ (Reconcile (demoEnv (.ok demoClient) (some demoImportErr) (some demoGoneErr) none)
          demoRequest (demoStore (demoSecret "0"))).world.trace ∧
    IsNotFound (some demoGoneErr) = true ∧
    (∃ errs, (Reconcile (demoEnv (.ok demoClient) (some demoImportErr) (some demoGoneErr) none)
        demoRequest (demoStore (demoSecret "0"))).err = some (Error.aggregate errs) ∧
      demoGoneErr ∈ errs) :=
  ⟨by decide, by decide,
    (delete_error_is_returned
      (demoEnv (.ok demoClient) (some demoImportErr) (some demoGoneErr) none)
      demoRequest (demoStore (demoSecret "0")) (demoSecret "0") demoGoneErr (by decide)).1⟩

/-- C7: when the import succeeds, the `Delete` of the auto-import secret fails and the
condition write fails, the condition write is still attempted after the failed
`Delete`, and the aggregate the pass returns holds both errors, the one of the
`Delete` first. -/
theorem delete_and_status_errors_are_collected (env : Env) (request : Request) (st : Store)
    (autoImportSecret importSecret : Secret) (importClient : ImportClient) (de se : Err)
    (h : ReachesImport env request st autoImportSecret importSecret importClient)
    (himport : env.ImportManagedClusterFromSecret importClient importSecret = none)
    (hdelete : env.deleteFault autoImportSecret = some de)
    (hstatus : env.statusFault request.Namespace importSucceeded = some se) :
    (Reconcile env request st).world.trace = loadTrace env request autoImportSecret ++
      [Event.importCluster importClient importSecret none,
       Event.delete autoImportSecret (some de),
       Event.eventf "AutoImportSecretDeleted" ("The managed cluster " ++ request.Namespace
          ++ " is imported, delete its auto import secret"),
       Event.updateStatus request.Namespace importSucceeded (some se)] ∧
    (Reconcile env request st).err = some (Error.aggregate [de, se]) ∧
    (∃ r, (Reconcile env request st).err = some r ∧ r.contains de ∧ r.contains se) ∧
    (Reconcile env request st).world.store = st := by
  rw [Reconcile_of_reachesImport h]
  have herr : (importAndReport env request.Namespace autoImportSecret importClient importSecret
      { store := st, trace := loadTrace env request autoImportSecret }).err
      = some (Error.aggregate [de, se]) := by
    simp [importAndReport_succeeded, himport, clientDelete, deleteAnswer, hdelete, recorderEventf,
      UpdateManagedClusterStatus, statusAnswer, hstatus, NewAggregate]
  refine ⟨?_, herr, ⟨_, herr, ?_, ?_⟩, ?_⟩
  · simp [importAndReport_succeeded, himport, clientDelete, deleteAnswer, hdelete, recorderEventf,
      UpdateManagedClusterStatus, statusAnswer, hstatus]
  · simp [Error.contains]
  · simp [Error.contains]
  · simp [importAndReport_succeeded, himport, clientDelete, deleteAnswer, hdelete, recorderEventf,
      UpdateManagedClusterStatus, statusAnswer, hstatus]

/-- The pass of C7 on `cluster1`. -/
theorem delete_and_status_errors_are_collected_witness :
    ReachesImport (demoEnv (.ok demoClient) none (some demoDeleteErr) (some demoStatusErr))
      demoRequest (demoStore (demoSecret "3")) (demoSecret "3") demoImportSecret demoClient ∧
    (Reconcile (demoEnv (.ok demoClient) none (some demoDeleteErr) (some demoStatusErr))
      demoRequest (demoStore (demoSecret "3"))).err
        = some (Error.aggregate [demoDeleteErr, demoStatusErr]) ∧
    (Reconcile (demoEnv (.ok demoClient) none (some demoDeleteErr) (some demoStatusErr))
      demoRequest (demoStore (demoSecret "3"))).world.store = demoStore (demoSecret "3") :=
  have h := delete_and_status_errors_are_collected
    (demoEnv (.ok demoClient) none (some demoDeleteErr) (some demoStatusErr)) demoRequest
    (demoStore (demoSecret "3")) (demoSecret "3") demoImportSecret demoClient
    demoDeleteErr demoStatusErr ⟨⟨demoCluster, rfl⟩, rfl, rfl, rfl⟩ rfl rfl rfl
  ⟨⟨⟨demoCluster, rfl⟩, rfl, rfl, rfl⟩, h.2.1, h.2.2.2⟩

/-- C8: when the managed cluster, the auto-import secret and the import secret are
found but the client construction fails, the pass returns the error of the
construction as it is and leaves the API server as it was: the secret keeps its
retry counter, and besides the three `Get` calls and the construction nothing is
called, so no `Update`, no `Delete`, no import and no condition write. -/
theorem client_error_is_returned (env : Env) (request : Request) (st : Store)
    (mc : ManagedCluster) (autoImportSecret importSecret : Secret) (e : Err)
    (hcluster : getManagedCluster env st request.Namespace = .ok mc)
    (hauto : getSecret env st request.Namespace env.constants.AutoImportSecretName
      = .ok autoImportSecret)
    (himp : getSecret env st request.Namespace (importSecretName env request.Namespace)
      = .ok importSecret)
    (hclient : env.GenerateClientFromSecret autoImportSecret = .error e) :
    (Reconcile env request st).err = some (Error.plain e) ∧
    (Reconcile env request st).world.store = st ∧
    st.findSecret request.Namespace env.constants.AutoImportSecretName = some autoImportSecret ∧
    (Reconcile env request st).world.trace =
      [Event.getCluster request.Namespace none,
       Event.getSecret request.Namespace env.constants.AutoImportSecretName none,
       Event.getSecret request.Namespace (importSecretName env request.Namespace) none,
       Event.generateClient autoImportSecret (some e)] ∧
    (∀ ev ∈ (Reconcile env request st).world.trace,
      ev.isUpdate = false ∧ ev.isDelete = false ∧ ev.isImport = false ∧
      ev.isStatusWrite = false) := by
  have htrace : (Reconcile env request st).world.trace =
      [Event.getCluster request.Namespace none,
       Event.getSecret request.Namespace env.constants.AutoImportSecretName none,
       Event.getSecret request.Namespace (importSecretName env request.Namespace) none,
       Event.generateClient autoImportSecret (some e)] := by
    simp [Reconcile, clientGetCluster, clientGetSecret, GenerateClientFromSecret, hcluster, hauto,
      himp, hclient, errOf]
  refine ⟨?_, ?_, (getSecret_ok hauto).2, htrace, ?_⟩
  · simp [Reconcile, clientGetCluster, clientGetSecret, GenerateClientFromSecret, hcluster, hauto,
      himp, hclient, errOf]
  · simp [Reconcile, clientGetCluster, clientGetSecret, GenerateClientFromSecret, hcluster, hauto,
      himp, hclient, errOf]
  · intro ev hev
    rw [htrace] at hev
    simp at hev
    rcases hev with rfl | rfl | rfl | rfl <;> exact ⟨rfl, rfl, rfl, rfl⟩

/-- The pass of C8 on `cluster1`. -/
theorem client_error_is_returned_witness :
    getManagedCluster (demoEnv (.error demoClientErr) none none none) (demoStore (demoSecret "3"))
      "cluster1" = .ok demoCluster ∧
    getSecret (demoEnv (.error demoClientErr) none none none) (demoStore (demoSecret "3"))
      "cluster1" "auto-import-secret" = .ok (demoSecret "3") ∧
    getSecret (demoEnv (.error demoClientErr) none none none) (demoStore (demoSecret "3"))
      "cluster1" "cluster1-import" = .ok demoImportSecret ∧
    (Reconcile (demoEnv (.error demoClientErr) none none none) demoRequest
      (demoStore (demoSecret "3"))).err = some (Error.plain demoClientErr) ∧
    (Reconcile (demoEnv (.error demoClientErr) none none none) demoRequest
      (demoStore (demoSecret "3"))).world.store = demoStore (demoSecret "3") :=
  have h := client_error_is_returned (demoEnv (.error demoClientErr) none none none) demoRequest
    (demoStore (demoSecret "3")) demoCluster (demoSecret "3") demoImportSecret demoClientErr
    rfl rfl rfl rfl
  ⟨rfl, rfl, rfl, h.1, h.2.1⟩

/-- C10: in a pass that reaches the import, a failed import is always returned: the
aggregate holds the error of the import whatever the answers to the writes are, and
after the import nothing is called but `updateAutoImportRetryTimes` and the condition
write, so the `Delete` of the succeeded import is not executed.  The pass returns no
error exactly when the import, the `Delete` of the auto-import secret and the
condition write all succeed, and it issues at most one `Update` or `Delete`. -/
theorem failed_import_is_returned (env : Env) (request : Request) (st : Store)
    (autoImportSecret importSecret : Secret) (importClient : ImportClient)
    (h : ReachesImport env request st autoImportSecret importSecret importClient) :
    (∀ e, env.ImportManagedClusterFromSecret importClient importSecret = some e →
      (∃ errs, (Reconcile env request st).err = some (Error.aggregate errs) ∧ e ∈ errs) ∧
      (Reconcile env request st).err ≠ none ∧
      ∃ answer, (Reconcile env request st).world.trace =
        (updateAutoImportRetryTimes env autoImportSecret
          { store := st,
            trace := loadTrace env request autoImportSecret ++
              [Event.importCluster importClient importSecret (some e)] }).2.trace ++
          [Event.updateStatus request.Namespace (importFailed request.Namespace e) answer]) ∧
    ((Reconcile env request st).err = none ↔
      env.ImportManagedClusterFromSecret importClient importSecret = none ∧
      env.deleteFault autoImportSecret = none ∧
      env.statusFault request.Namespace importSucceeded = none) ∧
    ((Reconcile env request st).world.trace.filter Event.isSecretWrite).length ≤ 1 := by
  rw [Reconcile_of_reachesImport h]
  obtain ⟨⟨mc, hc⟩, hs, hns, hname⟩ := h.found
  have hfailed : ∀ e, env.ImportManagedClusterFromSecret importClient importSecret = some e →
      ∃ errs, (importAndReport env request.Namespace autoImportSecret importClient importSecret
        { store := st, trace := loadTrace env request autoImportSecret }).err
          = some (Error.aggregate errs) ∧ e ∈ errs := by
    intro e himport
    rw [importAndReport_failed env _ _ _ _ _ e himport]
    dsimp only
    exact NewAggregate_of_mem _ e (by simp)
  refine ⟨?_, ?_, ?_⟩
  · intro e himport
    obtain ⟨errs, herr, hmem⟩ := hfailed e himport
    refine ⟨⟨errs, herr, hmem⟩, by rw [herr]; simp, ?_⟩
    rw [importAndReport_failed env _ _ _ _ _ e himport]
    exact ⟨_, by simp [UpdateManagedClusterStatus]; rfl⟩
  · constructor
    · intro herr
      cases himport : env.ImportManagedClusterFromSecret importClient importSecret with
      | some e =>
        obtain ⟨errs, herr2, _⟩ := hfailed e himport
        rw [herr] at herr2
        cases herr2
      | none =>
        rw [importAndReport_succeeded env _ _ _ _ _ himport] at herr
        dsimp only at herr
        rw [NewAggregate_eq_none] at herr
        have hdel : deleteAnswer env st autoImportSecret = none := by
          by_contra hne
          have := herr (deleteAnswer env st autoImportSecret) (by simp [clientDelete, hne])
          exact hne this
        have hdelFault : env.deleteFault autoImportSecret = none := by
          unfold deleteAnswer at hdel
          cases hf : env.deleteFault autoImportSecret with
          | none => rfl
          | some e => simp [hf] at hdel
        have hstat : statusAnswer env (st.removeSecret autoImportSecret.Namespace
            autoImportSecret.Name) request.Namespace importSucceeded = none := by
          by_contra hne
          have := herr (statusAnswer env (st.removeSecret autoImportSecret.Namespace
            autoImportSecret.Name) request.Namespace importSucceeded)
            (by simp [clientDelete, hdel, recorderEventf, UpdateManagedClusterStatus, hne])
          exact hne this
        have hstatFault : env.statusFault request.Namespace importSucceeded = none := by
          unfold statusAnswer at hstat
          cases hf : env.statusFault request.Namespace importSucceeded with
          | none => rfl
          | some e => simp [hf] at hstat
        exact ⟨rfl, hdelFault, hstatFault⟩
    · rintro ⟨himport, hdelete, hstatus⟩
      have hc2 : (st.removeSecret request.Namespace env.constants.AutoImportSecretName).findCluster
          request.Namespace = some mc := hc
      simp [importAndReport_succeeded, himport, clientDelete, deleteAnswer, hdelete, hns, hname,
        hs, recorderEventf, UpdateManagedClusterStatus_ok, hstatus, hc2, NewAggregate]
  · obtain ⟨rest, cond, answer, htrace, _, hlen⟩ := importAndReport_trace env request.Namespace
      autoImportSecret importSecret importClient
      { store := st, trace := loadTrace env request autoImportSecret }
    rw [htrace]
    simpa [loadTrace, List.filter_cons, Event.isSecretWrite, Event.isDelete, Event.isUpdate]
      using hlen

/-- The pass of C10 on `cluster1` with the retry counter `3` and a failed import, all
writes being accepted. -/
theorem failed_import_is_returned_witness :
    ReachesImport (demoEnv (.ok demoClient) (some demoImportErr) none none) demoRequest
      (demoStore (demoSecret "3")) (demoSecret "3") demoImportSecret demoClient ∧
    (Reconcile (demoEnv (.ok demoClient) (some demoImportErr) none none) demoRequest
      (demoStore (demoSecret "3"))).err = some (Error.aggregate [demoImportErr]) ∧
    ((Reconcile (demoEnv (.ok demoClient) (some demoImportErr) none none) demoRequest
      (demoStore (demoSecret "3"))).world.trace.filter Event.isSecretWrite).length ≤ 1 :=
  have h := failed_import_is_returned (demoEnv (.ok demoClient) (some demoImportErr) none none)
    demoRequest (demoStore (demoSecret "3")) (demoSecret "3") demoImportSecret demoClient
    ⟨⟨demoCluster, rfl⟩, rfl, rfl, rfl⟩
  ⟨⟨⟨demoCluster, rfl⟩, rfl, rfl, rfl⟩, by decide, h.2.2⟩

/-- C9: the retry budget is bounded and exact.  When the retry counter of the
auto-import secret reads as `n` with `0 ≤ n`, every import fails and nothing else
does, then after `k ≤ n` consecutive passes the secret still exists with a counter
that reads as `n - k` and, once a pass has run, is the decimal text of `n - k`; after
more than `n` passes the secret is gone; the number of imports made in `k` passes is
the smaller of `k` and `n + 1`, so exactly `n + 1` imports are made; and every pass
after the first `n + 1` returns success, changes nothing and calls nothing but `Get`. -/
theorem retry_budget_is_exact (env : Env) (request : Request) (st : Store)
    (mc : ManagedCluster) (autoImportSecret importSecret : Secret) (n : Int)
    (henv : FailingImports env)
    (hcluster : st.findCluster request.Namespace = some mc)
    (hsecret : st.findSecret request.Namespace env.constants.AutoImportSecretName
      = some autoImportSecret)
    (himp : st.findSecret request.Namespace (importSecretName env request.Namespace)
      = some importSecret)
    (hretry : autoImportSecret.retry = .ok n) (hn : 0 ≤ n) :
    (∀ k : Nat, (k : Int) ≤ n →
      ∃ stored, (passes env request k st).1.findSecret request.Namespace
          env.constants.AutoImportSecretName = some stored ∧
        stored.retry = .ok (n - k) ∧
        (1 ≤ k → dataGet stored.Data autoImportRetryName = some (Itoa (n - k)))) ∧
    (∀ k : Nat, n < (k : Int) →
      (passes env request k st).1.findSecret request.Namespace
        env.constants.AutoImportSecretName = none) ∧
    (∀ k : Nat,
      ((passes env request k st).2.filter Event.isImport).length = min k (n + 1).toNat) ∧
    (∀ k : Nat, n < (k : Int) →
      (Reconcile env request (passes env request k st).1).err = none ∧
      (Reconcile env request (passes env request k st).1).result.Requeue = false ∧
      (Reconcile env request (passes env request k st).1).world.store
        = (passes env request k st).1 ∧
      ∀ ev ∈ (Reconcile env request (passes env request k st).1).world.trace,
        ev.isGet = true) := by
  have hp : Pending env request st n :=
    ⟨⟨mc, hcluster⟩, ⟨autoImportSecret, hsecret, hretry⟩, ⟨importSecret, himp⟩⟩
  refine ⟨fun k hk => ?_, fun k hk => ?_, fun k => ?_, fun k hk => ?_⟩
  · obtain ⟨⟨_, ⟨stored, hfind, hr⟩, _⟩, htext, _⟩ := (passes_pending henv k st n hn hp).1 hk
    refine ⟨stored, hfind, hr, fun h1 => ?_⟩
    obtain ⟨stored2, hfind2, ht⟩ := htext h1
    rw [hfind] at hfind2
    cases hfind2
    exact ht
  · exact ((passes_pending henv k st n hn hp).2 hk).1
  · by_cases hk : (k : Int) ≤ n
    · rw [((passes_pending henv k st n hn hp).1 hk).2.2]
      omega
    · rw [((passes_pending henv k st n hn hp).2 (by omega)).2]
      omega
  · exact Reconcile_absent henv ((passes_pending henv k st n hn hp).2 hk).1

/-- The passes of C9 on `cluster1` with the retry counter `3`: the counter is `2`
after one pass and `0` after three, the secret is gone after four, and four imports
are made however many passes follow. -/
theorem retry_budget_is_exact_witness :
    FailingImports (demoEnv (.ok demoClient) (some demoImportErr) none none) ∧
    (demoSecret "3").retry = .ok 3 ∧
    (∃ stored, (passes (demoEnv (.ok demoClient) (some demoImportErr) none none) demoRequest 1
        (demoStore (demoSecret "3"))).1.findSecret "cluster1" "auto-import-secret"
          = some stored ∧
      stored.retry = .ok (3 - (1 : Nat)) ∧
      (1 ≤ 1 → dataGet stored.Data autoImportRetryName = some "2")) ∧
    (∃ stored, (passes (demoEnv (.ok demoClient) (some demoImportErr) none none) demoRequest 3
        (demoStore (demoSecret "3"))).1.findSecret "cluster1" "auto-import-secret"
          = some stored ∧
      stored.retry = .ok (3 - (3 : Nat)) ∧
      (1 ≤ 3 → dataGet stored.Data autoImportRetryName = some "0")) ∧
    (passes (demoEnv (.ok demoClient) (some demoImportErr) none none) demoRequest 4
      (demoStore (demoSecret "3"))).1.findSecret "cluster1" "auto-import-secret" = none ∧
    ((passes (demoEnv (.ok demoClient) (some demoImportErr) none none) demoRequest 7
      (demoStore (demoSecret "3"))).2.filter Event.isImport).length = 4 :=
  have henv : FailingImports (demoEnv (.ok demoClient) (some demoImportErr) none none) :=
    ⟨fun _ => rfl, fun _ _ => rfl, fun _ => rfl, fun _ => rfl, fun _ _ => rfl,
      fun _ => ⟨demoClient, rfl⟩, fun _ _ => ⟨demoImportErr, rfl⟩⟩
  have h := retry_budget_is_exact (demoEnv (.ok demoClient) (some demoImportErr) none none)
    demoRequest (demoStore (demoSecret "3")) demoCluster (demoSecret "3") demoImportSecret 3
    henv rfl rfl rfl (by decide) (by decide)
  ⟨henv, by decide, h.1 1 (by decide), h.1 3 (by decide), h.2.1 4 (by decide), h.2.2.1 7⟩

end AutoImport
